import Mathlib

set_option maxRecDepth 8000

/-!
Shallow embedding of the yuzu per-core kernel scheduler
(src/core/hle/kernel/scheduler.cpp, namespace Kernel, class Scheduler).

Modelling conventions:
- Thread handles are identified by natural-number ids; the shared thread
  store is a function from ids to `Thread` records (the scheduler in the
  source holds raw pointers into externally owned thread objects).
- Each `Scheduler` instance of the source is one entry of `cores`, indexed
  by its core number; `this` becomes an explicit core index argument.
- The u64 tick arithmetic of the source is modelled on `Nat` with explicit
  reduction modulo `2 ^ 64` where the source performs u64 subtraction and
  accumulation.
- Fallible operations (the ASSERT/UNIMPLEMENTED macros of the source abort
  the program) return `Except KError`.
- The ready queue container (Common::MultiLevelQueue) and a few Thread
  methods are declared outside the analyzed file; those definitions are
  modelled from the specification and say so in their doc comment.
-/

/-- Modelled from the spec: thread status, "one of {Running, Ready,
    Paused/Waiting, Stopped}" (the ThreadStatus enum lives in thread.h,
    which is not part of the analyzed source). -/
inductive ThreadStatus where
  | Running
  | Ready
  | Waiting
  | Stopped
deriving DecidableEq, Repr

/-- Thread handle fields read or written by the scheduler. -/
structure Thread where
  status : ThreadStatus
  priority : Nat
  affinity_mask : Nat
  processor_id : Nat
  context : Nat
  tpidr_el0 : Nat
  tls_address : Nat
  owner_process : Nat
  cpu_time_ticks : Nat
  wakeup_pending : Bool
deriving DecidableEq, Repr

/-- Process fields read or written by the scheduler. -/
structure Process where
  cpu_time_ticks : Nat
  page_table : Nat
deriving DecidableEq, Repr

/-- The per-core CPU interface state touched by the context switch. -/
structure CpuCore where
  context : Nat
  tpidr_el0 : Nat
  tls_address : Nat
  exclusive_state : Bool
deriving DecidableEq, Repr

/-- One Scheduler instance: current thread, ready queue (as its iteration
    sequence: ascending priority value, FIFO within a priority level; each
    entry carries the priority level it was stored under), membership list,
    and the last context switch timestamp. -/
structure SchedState where
  current_thread : Option Nat
  ready_queue : List (Nat × Nat)
  thread_list : List Nat
  last_context_switch_time : Nat
deriving DecidableEq, Repr

/-- The whole emulated system as seen by the scheduler code: the shared
    thread and process stores, the kernel's current process and page table,
    all per-core schedulers and CPU interfaces, and the core timing tick
    counter (read by system.CoreTiming().GetTicks()). -/
structure SystemState where
  threads : Nat → Thread
  processes : Nat → Process
  current_process : Option Nat
  current_page_table : Nat
  cores : Nat → SchedState
  cpus : Nat → CpuCore
  now : Nat

/-- Errors: a failed ASSERT, or the UNIMPLEMENTED_MSG abort. -/
inductive KError where
  | assertFail
  | unimplemented
deriving DecidableEq, Repr

def NUM_CPU_CORES : Nat := 4

def THREADPRIO_COUNT : Nat := 64

def U64 : Nat := 2 ^ 64

/-- u64 subtraction with wraparound, as in the source's
    `most_recent_switch_ticks - prev_switch_ticks`. -/
def u64sub (a b : Nat) : Nat := (a % U64 + U64 - b % U64) % U64

/-- Update one thread of the store. -/
def updThread (s : SystemState) (i : Nat) (f : Thread → Thread) : SystemState :=
  { s with threads := fun j => if j = i then f (s.threads j) else s.threads j }

/-- Update one process of the store. -/
def updProcess (s : SystemState) (i : Nat) (f : Process → Process) : SystemState :=
  { s with processes := fun j => if j = i then f (s.processes j) else s.processes j }

/-- Update one core's scheduler state. -/
def updCore (s : SystemState) (c : Nat) (f : SchedState → SchedState) : SystemState :=
  { s with cores := fun d => if d = c then f (s.cores d) else s.cores d }

/-- Update one core's CPU interface state. -/
def updCpu (s : SystemState) (c : Nat) (f : CpuCore → CpuCore) : SystemState :=
  { s with cpus := fun d => if d = c then f (s.cpus d) else s.cpus d }

/-- Modelled from the spec: MultiLevelQueue::add (the container lives in
    common/multi_level_queue.h, not part of the analyzed source). Inserts
    the thread at the back of its priority level's FIFO list, keeping the
    iteration sequence in ascending priority-value order ("FIFO within
    equal priority"). Both call sites of the scheduler use back insertion
    (SwitchContext passes at_front = false explicitly). -/
def qAdd : List (Nat × Nat) → Nat → Nat → List (Nat × Nat)
  | [], t, p => [(t, p)]
  | e :: rest, t, p => if e.2 ≤ p then e :: qAdd rest t p else (t, p) :: e :: rest

/-- Modelled from the spec: MultiLevelQueue::remove — remove the entry for
    this thread from the given priority level (first occurrence). -/
def qRemove : List (Nat × Nat) → Nat → Nat → List (Nat × Nat)
  | [], _, _ => []
  | e :: rest, t, p => if e = (t, p) then rest else e :: qRemove rest t p

/-- Modelled from the spec: MultiLevelQueue::adjust — reposition a thread
    from its old priority level to a new one. -/
def qAdjust (q : List (Nat × Nat)) (t oldp newp : Nat) : List (Nat × Nat) :=
  qAdd (qRemove q t oldp) t newp

/-- Modelled from the spec: MultiLevelQueue::front — "the highest-priority
    ready thread or none", i.e. the head of the iteration sequence. -/
def qFront (q : List (Nat × Nat)) : Option Nat := q.head?.map Prod.fst

/-- Scheduler::GetCurrentThread. -/
def GetCurrentThread (sc : SchedState) : Option Nat := sc.current_thread

/-- Scheduler::HaveReadyThreads. -/
def HaveReadyThreads (sc : SchedState) : Bool := !sc.ready_queue.isEmpty

/-- Scheduler::GetLastContextSwitchTicks. -/
def GetLastContextSwitchTicks (sc : SchedState) : Nat := sc.last_context_switch_time

/-- Scheduler::PopNextReadyThread. The source's dead `next == nullptr`
    check after front() on a non-empty queue cannot fire in the model
    (front of a non-empty sequence is always present). -/
def PopNextReadyThread (th : Nat → Thread) (sc : SchedState) : Option Nat :=
  match sc.current_thread with
  | some c =>
    if (th c).status = ThreadStatus.Running then
      match sc.ready_queue with
      | [] => some c
      | e :: _ => if (th c).priority ≤ (th e.1).priority then some c else some e.1
    else qFront sc.ready_queue
  | none => qFront sc.ready_queue

/-- Scheduler::UpdateLastContextSwitchTime. `thread` and `process` are the
    outgoing thread and previously active process (either may be absent);
    the tick delta is u64 arithmetic on the core timing counter. -/
def UpdateLastContextSwitchTime (s : SystemState) (core : Nat)
    (thread : Option Nat) (process : Option Nat) : SystemState :=
  let prev_switch_ticks := (s.cores core).last_context_switch_time
  let most_recent_switch_ticks := s.now
  let update_ticks := u64sub most_recent_switch_ticks prev_switch_ticks
  let s1 := match thread with
    | some t => updThread s t
        (fun th => { th with cpu_time_ticks := (th.cpu_time_ticks + update_ticks) % U64 })
    | none => s
  let s2 := match process with
    | some pr => updProcess s1 pr
        (fun ps => { ps with cpu_time_ticks := (ps.cpu_time_ticks + update_ticks) % U64 })
    | none => s1
  updCore s2 core (fun c => { c with last_context_switch_time := most_recent_switch_ticks })

/-- The `if (previous_thread)` block of Scheduler::SwitchContext: save the
    CPU context and TPIDR_EL0 into the outgoing thread and, if it is still
    Running (displaced involuntarily), re-insert it at the back of its
    priority level (at_front = false) and demote it to Ready. -/
def saveContext (s : SystemState) (core : Nat) : SystemState :=
  match (s.cores core).current_thread with
  | none => s
  | some p =>
    let s1 := updThread s p
      (fun t => { t with context := (s.cpus core).context, tpidr_el0 := (s.cpus core).tpidr_el0 })
    if (s1.threads p).status = ThreadStatus.Running then
      let s2 := updCore s1 core
        (fun c => { c with ready_queue := qAdd c.ready_queue p ((s1.threads p).priority) })
      updThread s2 p (fun t => { t with status := ThreadStatus.Ready })
    else s1

/-- The `if (new_thread)` block of Scheduler::SwitchContext: assert the
    incoming thread is Ready, cancel its wakeup timer, make it current,
    remove it from the ready queue, mark it Running, switch the active
    process and page table if its owner differs, and load its context into
    the CPU core; with no incoming thread the core goes idle (the process
    and page table are deliberately left unchanged). -/
def loadContext (s : SystemState) (core : Nat) (previous_process : Option Nat) :
    Option Nat → Except KError SystemState
  | some n =>
    if (s.threads n).status ≠ ThreadStatus.Ready then .error .assertFail
    else
      let s1 := updThread s n (fun t => { t with wakeup_pending := false })
      let s2 := updCore s1 core (fun c => { c with current_thread := some n })
      let s3 := updCore s2 core
        (fun c => { c with ready_queue := qRemove c.ready_queue n ((s2.threads n).priority) })
      let s4 := updThread s3 n (fun t => { t with status := ThreadStatus.Running })
      let owner := (s4.threads n).owner_process
      let s5 := if previous_process ≠ some owner then
          { s4 with current_process := some owner,
                    current_page_table := (s4.processes owner).page_table }
        else s4
      .ok (updCpu s5 core (fun cp =>
        { cp with context := (s5.threads n).context,
                  tls_address := (s5.threads n).tls_address,
                  tpidr_el0 := (s5.threads n).tpidr_el0,
                  exclusive_state := false }))
  | none => .ok (updCore s core (fun c => { c with current_thread := none }))

/-- Scheduler::SwitchContext: CPU-time attribution, then the save phase,
    then the load phase. -/
def SwitchContext (s : SystemState) (core : Nat) (new_thread : Option Nat) :
    Except KError SystemState :=
  let previous_thread := (s.cores core).current_thread
  let previous_process := s.current_process
  let s1 := UpdateLastContextSwitchTime s core previous_thread previous_process
  let s2 := saveContext s1 core
  loadContext s2 core previous_process new_thread

/-- Scheduler::Reschedule: select with PopNextReadyThread, then switch. -/
def Reschedule (s : SystemState) (core : Nat) : Except KError SystemState :=
  SwitchContext s core (PopNextReadyThread s.threads (s.cores core))

/-- Scheduler::AddThread: appends the thread to this core's membership
    list; the priority argument is not used by the body. -/
def AddThread (s : SystemState) (core : Nat) (thread : Nat) (priority : Nat) : SystemState :=
  updCore s core (fun c => { c with thread_list := c.thread_list ++ [thread] })

/-- Scheduler::RemoveThread: erase every occurrence from the membership
    list (std::remove + erase). -/
def RemoveThread (s : SystemState) (core : Nat) (thread : Nat) : SystemState :=
  updCore s core (fun c => { c with thread_list := c.thread_list.filter (fun t => t ≠ thread) })

/-- Scheduler::ScheduleThread: assert Ready, then insert into the ready
    queue at the given priority. -/
def ScheduleThread (s : SystemState) (core : Nat) (thread priority : Nat) :
    Except KError SystemState :=
  if (s.threads thread).status ≠ ThreadStatus.Ready then .error .assertFail
  else .ok (updCore s core (fun c => { c with ready_queue := qAdd c.ready_queue thread priority }))

/-- Scheduler::UnscheduleThread: assert Ready, then remove from the ready
    queue at the given priority. -/
def UnscheduleThread (s : SystemState) (core : Nat) (thread priority : Nat) :
    Except KError SystemState :=
  if (s.threads thread).status ≠ ThreadStatus.Ready then .error .assertFail
  else .ok (updCore s core (fun c => { c with ready_queue := qRemove c.ready_queue thread priority }))

/-- Scheduler::SetThreadPriority plus its caller-side tail. The guard and
    the queue adjustment for a Ready thread are the analyzed source; the
    final write of the recorded priority is modelled from the spec
    (Thread::UpdatePriority, which calls the scheduler and then stores the
    new value into the thread handle, is not part of the analyzed source:
    "only its recorded priority, which is read by the thread handle
    itself"). -/
def SetThreadPriority (s : SystemState) (core : Nat) (thread priority : Nat) : SystemState :=
  if (s.threads thread).priority = priority then s
  else
    let s1 := if (s.threads thread).status = ThreadStatus.Ready then
        updCore s core (fun c =>
          { c with ready_queue := qAdjust c.ready_queue thread ((s.threads thread).priority) priority })
      else s
    updThread s1 thread (fun t => { t with priority := priority })

/-- The for-loop body of Scheduler::GetNextSuggestedThread over the ready
    queue's iteration sequence. -/
def suggestScan (s : SystemState) (mask maximum_priority : Nat) :
    List (Nat × Nat) → Option Nat
  | [] => none
  | e :: rest =>
    if (s.threads e.1).affinity_mask &&& mask ≠ 0 ∧ (s.threads e.1).priority < maximum_priority
    then some e.1
    else suggestScan s mask maximum_priority rest

/-- Scheduler::GetNextSuggestedThread, a const method of the scheduler of
    core `selfCore`: first thread of the ready queue whose affinity mask
    contains bit `core` and whose priority is strictly below
    `maximum_priority`. It returns a value and takes no state: the call
    mutates nothing. -/
def GetNextSuggestedThread (s : SystemState) (selfCore core maximum_priority : Nat) : Option Nat :=
  suggestScan s (1 <<< core) maximum_priority (s.cores selfCore).ready_queue

/-- Modelled from the spec: Thread::Sleep(0) (thread.cpp is not part of
    the analyzed source) — "force the thread to sleep for zero duration":
    the thread leaves Running for a wait state and a wakeup is pending. -/
def SleepZero (s : SystemState) (t : Nat) : SystemState :=
  updThread s t (fun th => { th with status := ThreadStatus.Waiting, wakeup_pending := true })

/-- Modelled from the spec: Thread::ChangeCore (thread.cpp is not part of
    the analyzed source) — "change its assigned processor to this core
    while preserving its existing affinity mask": store the given core as
    the assigned processor and the given mask as the affinity mask. -/
def ChangeCore (s : SystemState) (t : Nat) (core mask : Nat) : SystemState :=
  updThread s t (fun th => { th with processor_id := core, affinity_mask := mask })

/-- The candidate accumulation step of Scheduler::YieldWithLoadBalancing:
    a non-none result replaces the running best only when the best is
    absent or the result's priority is strictly smaller. -/
def pickBetter (s : SystemState) (suggested res : Option Nat) : Option Nat :=
  match res with
  | none => suggested
  | some r =>
    match suggested with
    | none => some r
    | some sug => if (s.threads sug).priority > (s.threads r).priority then some r else suggested

/-- The candidate-collection loop of Scheduler::YieldWithLoadBalancing as
    written in the source: it iterates over ALL cpu cores 0 .. 3, with no
    skip of the yielding thread's own core. -/
def suggestLoop (s : SystemState) (core priority : Nat) : Option Nat :=
  (List.range NUM_CPU_CORES).foldl
    (fun suggested cur_core => pickBetter s suggested (GetNextSuggestedThread s cur_core core priority))
    none

/-- The candidate-collection loop as the specification (and the source's
    own comment "Search through all of the cpu cores (except this one)")
    describes it: every core EXCEPT the yielding thread's own core is
    queried. Written for comparison with `suggestLoop`. -/
def suggestLoopSpec (s : SystemState) (core priority : Nat) : Option Nat :=
  (List.range NUM_CPU_CORES).foldl
    (fun suggested cur_core =>
      if cur_core = core then suggested
      else pickBetter s suggested (GetNextSuggestedThread s cur_core core priority))
    none

/-- Scheduler::YieldWithLoadBalancing for the scheduler of core
    `selfCore`: assert the thread is Running with a valid priority, put
    the current thread to sleep for zero time (a null current thread would
    crash the source's GetCurrentThread()->Sleep(0) call, modelled as an
    assert failure), collect the best suggested thread over all cores, and
    if one was found migrate it to `core` (the yielding thread's processor
    id) keeping its affinity mask. -/
def YieldWithLoadBalancing (s : SystemState) (selfCore thread : Nat) :
    Except KError SystemState :=
  let priority := (s.threads thread).priority
  let core := (s.threads thread).processor_id
  if (s.threads thread).status ≠ ThreadStatus.Running then .error .assertFail
  else if ¬ priority < THREADPRIO_COUNT then .error .assertFail
  else
    match (s.cores selfCore).current_thread with
    | none => .error .assertFail
    | some cur =>
      let s1 := SleepZero s cur
      match suggestLoop s1 core priority with
      | none => .ok s1
      | some sug => .ok (ChangeCore s1 sug core ((s1.threads sug).affinity_mask))

/-- The candidate YieldWithLoadBalancing computes, exposed for stating
    theorems: none when the scheduler has no current thread (the call
    fails), otherwise the loop's best suggestion evaluated after the
    zero-duration sleep. -/
def yieldCandidate (s : SystemState) (selfCore thread : Nat) : Option Nat :=
  match (s.cores selfCore).current_thread with
  | none => none
  | some cur => suggestLoop (SleepZero s cur) ((s.threads thread).processor_id) ((s.threads thread).priority)

/-- Scheduler::YieldAndWaitForLoadBalancing: UNIMPLEMENTED_MSG, an
    unconditional unrecoverable failure. -/
def YieldAndWaitForLoadBalancing (s : SystemState) (thread : Nat) :
    Except KError SystemState :=
  .error .unimplemented

/-- Scheduler::YieldWithoutLoadBalancing: assert the thread is Running
    with a valid priority, then sleep the current thread for zero time. -/
def YieldWithoutLoadBalancing (s : SystemState) (selfCore thread : Nat) :
    Except KError SystemState :=
  if (s.threads thread).status ≠ ThreadStatus.Running then .error .assertFail
  else if ¬ (s.threads thread).priority < THREADPRIO_COUNT then .error .assertFail
  else
    match (s.cores selfCore).current_thread with
    | none => .error .assertFail
    | some cur => .ok (SleepZero s cur)

/-- Basic well-formedness of one core's scheduler state, from the spec's
    invariants (§3): queued threads are Ready and stored under their
    recorded priority; no thread is queued twice; the current thread is
    not in the ready queue; a registered Running thread is the current
    thread. -/
def WF (s : SystemState) (core : Nat) : Prop :=
  (∀ e ∈ (s.cores core).ready_queue,
      (s.threads e.1).status = ThreadStatus.Ready ∧ e.2 = (s.threads e.1).priority)
  ∧ ((s.cores core).ready_queue.map Prod.fst).Nodup
  ∧ (∀ c ∈ (s.cores core).current_thread.toList, c ∉ (s.cores core).ready_queue.map Prod.fst)
  ∧ (∀ t ∈ (s.cores core).thread_list, (s.threads t).status = ThreadStatus.Running →
      (s.cores core).current_thread = some t)

/-- Run a sequence of context switches on one core: each step sets the
    core timing counter to the step's tick value (the external timing
    source advanced) and performs one SwitchContext with the step's
    incoming thread. -/
def runSwitches (core : Nat) : SystemState → List (Nat × Option Nat) → Except KError SystemState
  | s, [] => .ok s
  | s, step :: rest =>
    match SwitchContext { s with now := step.1 } core step.2 with
    | .error e => .error e
    | .ok s1 => runSwitches core s1 rest

/-- The threads that are current at some point during a switch sequence:
    the initial current thread plus every incoming thread of a step. -/
def currentsOf (s : SystemState) (core : Nat) (steps : List (Nat × Option Nat)) : List Nat :=
  (s.cores core).current_thread.toList ++ steps.filterMap Prod.snd

/-- Unwrap a successful Reschedule, keeping the input state on failure. -/
def rescheduleD (s : SystemState) (core : Nat) : SystemState :=
  match Reschedule s core with
  | .ok s1 => s1
  | .error _ => s

/-- Unwrap a successful YieldWithLoadBalancing, keeping the input state on
    failure. -/
def yieldD (s : SystemState) (selfCore thread : Nat) : SystemState :=
  match YieldWithLoadBalancing s selfCore thread with
  | .ok s1 => s1
  | .error _ => s

/-- Unwrap a successful switch sequence, keeping the input state on
    failure. -/
def runSwitchesD (core : Nat) (s : SystemState) (steps : List (Nat × Option Nat)) : SystemState :=
  match runSwitches core s steps with
  | .ok s1 => s1
  | .error _ => s

/-- A thread record with the given status, priority, affinity mask and
    assigned processor; all other fields zeroed. -/
def mkThread (st : ThreadStatus) (priority mask proc : Nat) : Thread :=
  { status := st, priority := priority, affinity_mask := mask, processor_id := proc,
    context := 0, tpidr_el0 := 0, tls_address := 0, owner_process := 0,
    cpu_time_ticks := 0, wakeup_pending := false }

/-- An idle scheduler with nothing queued. -/
def idleSched : SchedState :=
  { current_thread := none, ready_queue := [], thread_list := [], last_context_switch_time := 0 }

/-- A system built from a thread store and per-core scheduler states; all
    processes, CPU interfaces and the page table are zeroed. -/
def mkSystem (th : Nat → Thread) (cs : Nat → SchedState) (now : Nat) : SystemState :=
  { threads := th, processes := fun _ => { cpu_time_ticks := 0, page_table := 0 },
    current_process := none, current_page_table := 0, cores := cs,
    cpus := fun _ => { context := 0, tpidr_el0 := 0, tls_address := 0, exclusive_state := false },
    now := now }

/-- Thread store: thread 0 Running at priority 10, thread 1 Ready at
    priority 5, both eligible on core 0. -/
def exThreads1 : Nat → Thread := fun i =>
  if i = 0 then mkThread ThreadStatus.Running 10 1 0
  else if i = 1 then mkThread ThreadStatus.Ready 5 1 0
  else mkThread ThreadStatus.Stopped 0 0 0

/-- Core 0 running thread 0 with thread 1 ready at a better priority. -/
def exSched1 : SchedState :=
  { current_thread := some 0, ready_queue := [(1, 5)], thread_list := [0, 1],
    last_context_switch_time := 0 }

/-- A one-busy-core system for the selection and invariant witnesses. -/
def exSys1 : SystemState :=
  mkSystem exThreads1 (fun c => if c = 0 then exSched1 else idleSched) 0

/-- Thread store for the yield-loop evaluation: the yielding thread 0 runs
    on core 0 and the only eligible candidate, thread 1, sits in core 0's
    own ready queue. -/
def exThreads4 : Nat → Thread := fun i =>
  if i = 0 then mkThread ThreadStatus.Running 10 1 0
  else if i = 1 then mkThread ThreadStatus.Ready 5 1 1
  else mkThread ThreadStatus.Stopped 0 0 0

/-- System whose only suggestion candidate lives on the yielding core. -/
def exSys4 : SystemState :=
  mkSystem exThreads4
    (fun c => if c = 0 then
        { current_thread := some 0, ready_queue := [(1, 5)], thread_list := [0, 1],
          last_context_switch_time := 0 }
      else idleSched) 0

/-- Thread store for the cross-core query witness: thread 2 has the best
    priority but is not eligible on core 0; thread 1 is. -/
def exThreads5 : Nat → Thread := fun i =>
  if i = 1 then mkThread ThreadStatus.Ready 5 1 0
  else if i = 2 then mkThread ThreadStatus.Ready 3 2 1
  else mkThread ThreadStatus.Stopped 0 0 0

/-- Core 0 with a two-entry ready queue in ascending priority order. -/
def exSys5 : SystemState :=
  mkSystem exThreads5
    (fun c => if c = 0 then
        { current_thread := none, ready_queue := [(2, 3), (1, 5)], thread_list := [1, 2],
          last_context_switch_time := 0 }
      else idleSched) 0

/-- Thread store for the migration witness: thread 0 runs on core 0 and
    yields; thread 2 is ready on core 1 with affinity for both cores. -/
def exThreads6 : Nat → Thread := fun i =>
  if i = 0 then mkThread ThreadStatus.Running 10 1 0
  else if i = 2 then mkThread ThreadStatus.Ready 4 3 1
  else mkThread ThreadStatus.Stopped 0 0 0

/-- Core 0 about to idle, core 1 holding the migration candidate. -/
def exSys6 : SystemState :=
  mkSystem exThreads6
    (fun c => if c = 0 then
        { current_thread := some 0, ready_queue := [], thread_list := [0],
          last_context_switch_time := 0 }
      else if c = 1 then
        { current_thread := none, ready_queue := [(2, 4)], thread_list := [2],
          last_context_switch_time := 0 }
      else idleSched) 0

/-- Thread store for the priority-change witness: thread 1 Ready at
    priority 5. -/
def exThreads7 : Nat → Thread := fun i =>
  if i = 1 then mkThread ThreadStatus.Ready 5 1 0
  else mkThread ThreadStatus.Stopped 0 0 0

/-- Core 0 with thread 1 queued at priority 5. -/
def exSys7 : SystemState :=
  mkSystem exThreads7
    (fun c => if c = 0 then
        { current_thread := none, ready_queue := [(1, 5)], thread_list := [1],
          last_context_switch_time := 0 }
      else idleSched) 0

/-- A fully idle system: no current thread any core, nothing queued. -/
def exSys8 : SystemState :=
  mkSystem (fun _ => mkThread ThreadStatus.Stopped 0 0 0) (fun _ => idleSched) 0

/-- Thread store for the accounting witness: thread 0 Running, thread 1
    Ready, both on core 0. -/
def exThreads8 : Nat → Thread := fun i =>
  if i = 0 then mkThread ThreadStatus.Running 10 1 0
  else if i = 1 then mkThread ThreadStatus.Ready 5 1 0
  else mkThread ThreadStatus.Stopped 0 0 0

/-- Core 0 running thread 0 with thread 1 ready, for a two-switch trace. -/
def exSys8b : SystemState :=
  mkSystem exThreads8
    (fun c => if c = 0 then
        { current_thread := some 0, ready_queue := [(1, 5)], thread_list := [0, 1],
          last_context_switch_time := 0 }
      else idleSched) 0

/-- The ready queue as left by the save phase of SwitchContext: with a
    still-Running outgoing thread it gains that thread at its priority,
    otherwise it is unchanged. -/
def postSaveQueue (s : SystemState) (core : Nat) : List (Nat × Nat) :=
  match (s.cores core).current_thread with
  | some p =>
    if (s.threads p).status = ThreadStatus.Running
    then qAdd ((s.cores core).ready_queue) p ((s.threads p).priority)
    else (s.cores core).ready_queue
  | none => (s.cores core).ready_queue

/-! ## Basic lemmas about the state updaters -/

theorem updThread_threads (s : SystemState) (i : Nat) (f : Thread → Thread) (j : Nat) :
    (updThread s i f).threads j = if j = i then f (s.threads i) else s.threads j := by
  by_cases h : j = i <;> simp [updThread, h]

@[simp] theorem updThread_threads_self (s : SystemState) (i : Nat) (f : Thread → Thread) :
    (updThread s i f).threads i = f (s.threads i) := by
  simp [updThread]

theorem updThread_threads_other (s : SystemState) (i : Nat) (f : Thread → Thread)
    (j : Nat) (h : j ≠ i) : (updThread s i f).threads j = s.threads j := by
  simp [updThread, h]

@[simp] theorem updThread_cores (s : SystemState) (i : Nat) (f : Thread → Thread) :
    (updThread s i f).cores = s.cores := rfl

@[simp] theorem updThread_processes (s : SystemState) (i : Nat) (f : Thread → Thread) :
    (updThread s i f).processes = s.processes := rfl

@[simp] theorem updThread_current_process (s : SystemState) (i : Nat) (f : Thread → Thread) :
    (updThread s i f).current_process = s.current_process := rfl

@[simp] theorem updThread_now (s : SystemState) (i : Nat) (f : Thread → Thread) :
    (updThread s i f).now = s.now := rfl

@[simp] theorem updThread_cpus (s : SystemState) (i : Nat) (f : Thread → Thread) :
    (updThread s i f).cpus = s.cpus := rfl

theorem updProcess_processes (s : SystemState) (i : Nat) (f : Process → Process) (j : Nat) :
    (updProcess s i f).processes j = if j = i then f (s.processes i) else s.processes j := by
  by_cases h : j = i <;> simp [updProcess, h]

@[simp] theorem updProcess_threads (s : SystemState) (i : Nat) (f : Process → Process) :
    (updProcess s i f).threads = s.threads := rfl

@[simp] theorem updProcess_cores (s : SystemState) (i : Nat) (f : Process → Process) :
    (updProcess s i f).cores = s.cores := rfl

@[simp] theorem updProcess_current_process (s : SystemState) (i : Nat) (f : Process → Process) :
    (updProcess s i f).current_process = s.current_process := rfl

@[simp] theorem updProcess_now (s : SystemState) (i : Nat) (f : Process → Process) :
    (updProcess s i f).now = s.now := rfl

@[simp] theorem updProcess_cpus (s : SystemState) (i : Nat) (f : Process → Process) :
    (updProcess s i f).cpus = s.cpus := rfl

theorem updCore_cores (s : SystemState) (c : Nat) (f : SchedState → SchedState) (d : Nat) :
    (updCore s c f).cores d = if d = c then f (s.cores c) else s.cores d := by
  by_cases h : d = c <;> simp [updCore, h]

@[simp] theorem updCore_cores_self (s : SystemState) (c : Nat) (f : SchedState → SchedState) :
    (updCore s c f).cores c = f (s.cores c) := by
  simp [updCore]

theorem updCore_cores_other (s : SystemState) (c : Nat) (f : SchedState → SchedState)
    (d : Nat) (h : d ≠ c) : (updCore s c f).cores d = s.cores d := by
  simp [updCore, h]

@[simp] theorem updCore_threads (s : SystemState) (c : Nat) (f : SchedState → SchedState) :
    (updCore s c f).threads = s.threads := rfl

@[simp] theorem updCore_processes (s : SystemState) (c : Nat) (f : SchedState → SchedState) :
    (updCore s c f).processes = s.processes := rfl

@[simp] theorem updCore_current_process (s : SystemState) (c : Nat) (f : SchedState → SchedState) :
    (updCore s c f).current_process = s.current_process := rfl

@[simp] theorem updCore_now (s : SystemState) (c : Nat) (f : SchedState → SchedState) :
    (updCore s c f).now = s.now := rfl

@[simp] theorem updCore_cpus (s : SystemState) (c : Nat) (f : SchedState → SchedState) :
    (updCore s c f).cpus = s.cpus := rfl

@[simp] theorem updCpu_threads (s : SystemState) (c : Nat) (f : CpuCore → CpuCore) :
    (updCpu s c f).threads = s.threads := rfl

@[simp] theorem updCpu_processes (s : SystemState) (c : Nat) (f : CpuCore → CpuCore) :
    (updCpu s c f).processes = s.processes := rfl

@[simp] theorem updCpu_cores (s : SystemState) (c : Nat) (f : CpuCore → CpuCore) :
    (updCpu s c f).cores = s.cores := rfl

@[simp] theorem updCpu_current_process (s : SystemState) (c : Nat) (f : CpuCore → CpuCore) :
    (updCpu s c f).current_process = s.current_process := rfl

@[simp] theorem updCpu_now (s : SystemState) (c : Nat) (f : CpuCore → CpuCore) :
    (updCpu s c f).now = s.now := rfl

/-! ## Lemmas about the ready-queue container -/

theorem mem_qAdd {q : List (Nat × Nat)} {t p : Nat} {e : Nat × Nat} :
    e ∈ qAdd q t p ↔ e ∈ q ∨ e = (t, p) := by
  induction q with
  | nil => simp [qAdd]
  | cons a rest ih =>
    simp only [qAdd]
    split
    · simp only [List.mem_cons, ih]
      tauto
    · simp only [List.mem_cons]
      tauto

theorem ids_qAdd {q : List (Nat × Nat)} {t p x : Nat} :
    x ∈ (qAdd q t p).map Prod.fst ↔ x ∈ q.map Prod.fst ∨ x = t := by
  simp only [List.mem_map]
  constructor
  · rintro ⟨e, he, rfl⟩
    rcases mem_qAdd.mp he with h | rfl
    · exact Or.inl ⟨e, h, rfl⟩
    · exact Or.inr rfl
  · rintro (⟨e, he, rfl⟩ | hx)
    · exact ⟨e, mem_qAdd.mpr (Or.inl he), rfl⟩
    · exact ⟨(t, p), mem_qAdd.mpr (Or.inr rfl), hx.symm⟩

theorem nodup_ids_qAdd {q : List (Nat × Nat)} {t p : Nat}
    (h1 : t ∉ q.map Prod.fst) (h2 : (q.map Prod.fst).Nodup) :
    ((qAdd q t p).map Prod.fst).Nodup := by
  induction q with
  | nil => simp [qAdd]
  | cons a rest ih =>
    simp only [List.map_cons, List.nodup_cons, List.mem_cons, not_or] at h1 h2
    simp only [qAdd]
    split
    · simp only [List.map_cons, List.nodup_cons]
      refine ⟨fun hmem => ?_, ih h1.2 h2.2⟩
      rcases ids_qAdd.mp hmem with h | h
      · exact h2.1 h
      · apply h1.1; omega
    · simp only [List.map_cons, List.nodup_cons, List.mem_cons, not_or]
      refine ⟨⟨?_, h1.2⟩, h2.1, h2.2⟩
      intro hcontra
      apply h1.1
      omega

theorem mem_of_mem_qRemove {q : List (Nat × Nat)} {t p : Nat} {e : Nat × Nat}
    (h : e ∈ qRemove q t p) : e ∈ q := by
  induction q with
  | nil => simp [qRemove] at h
  | cons a rest ih =>
    simp only [qRemove] at h
    split at h
    · exact List.mem_cons_of_mem _ h
    · rcases List.mem_cons.mp h with rfl | h
      · exact List.mem_cons_self _ _
      · exact List.mem_cons_of_mem _ (ih h)

theorem mem_qRemove_of_ne {q : List (Nat × Nat)} {t p : Nat} {e : Nat × Nat}
    (he : e ∈ q) (hne : e.1 ≠ t) : e ∈ qRemove q t p := by
  induction q with
  | nil => simp at he
  | cons a rest ih =>
    simp only [qRemove]
    split
    · rename_i heq
      rcases List.mem_cons.mp he with rfl | h
      · exact absurd (by rw [heq]) hne
      · exact h
    · rcases List.mem_cons.mp he with rfl | h
      · exact List.mem_cons_self _ _
      · exact List.mem_cons_of_mem _ (ih h)

theorem not_mem_ids_qRemove {q : List (Nat × Nat)} {t p : Nat}
    (hnd : (q.map Prod.fst).Nodup)
    (hall : ∀ e ∈ q, e.1 = t → e.2 = p) :
    t ∉ (qRemove q t p).map Prod.fst := by
  induction q with
  | nil => simp [qRemove]
  | cons a rest ih =>
    simp only [List.map_cons, List.nodup_cons] at hnd
    simp only [qRemove]
    split
    · rename_i heq
      intro hmem
      apply hnd.1
      have : a.1 = t := by rw [heq]
      rw [this]
      exact hmem
    · rename_i hne
      simp only [List.map_cons, List.mem_cons, not_or]
      constructor
      · intro h
        have h2 := hall a (List.mem_cons_self _ _) h.symm
        exact hne (Prod.ext h.symm h2)
      · exact ih hnd.2 (fun e he h => hall e (List.mem_cons_of_mem _ he) h)

/-! ## Arithmetic helpers -/

theorem u64sub_of_le {a b : Nat} (hba : b ≤ a) (ha : a < U64) : u64sub a b = a - b := by
  have hb : b < U64 := Nat.lt_of_le_of_lt hba ha
  unfold u64sub
  rw [Nat.mod_eq_of_lt ha, Nat.mod_eq_of_lt hb]
  have h1 : a % U64 = a := Nat.mod_eq_of_lt ha
  have : a + U64 - b = (a - b) + U64 := by omega
  rw [this, Nat.add_mod_right, Nat.mod_eq_of_lt (by omega)]

theorem sum_map_update {l : List Nat} (hnd : l.Nodup) {p : Nat} (hp : p ∈ l)
    (f : Nat → Nat) (v : Nat) :
    (l.map (fun t => if t = p then v else f t)).sum + f p = (l.map f).sum + v := by
  induction l with
  | nil => simp at hp
  | cons a rest ih =>
    simp only [List.nodup_cons] at hnd
    rcases List.mem_cons.mp hp with rfl | h
    · have hmap : rest.map (fun t => if t = p then v else f t) = rest.map f := by
        apply List.map_congr_left
        intro t ht
        have hne : t ≠ p := fun hc => hnd.1 (hc ▸ ht)
        simp [hne]
      simp only [List.map_cons, List.sum_cons, hmap]
      simp only [if_pos]
      omega
    · have hap : a ≠ p := fun hc => hnd.1 (hc ▸ h)
      simp only [List.map_cons, List.sum_cons, if_neg hap]
      have := ih hnd.2 h
      omega

/-! ## Projection lemmas for the context-switch phases -/

theorem procSwitch_cores (cond : Prop) [Decidable cond] (s4 : SystemState)
    (op : Option Nat) (pt : Nat) :
    (if cond then { s4 with current_process := op, current_page_table := pt } else s4).cores
      = s4.cores := by
  split <;> rfl

theorem procSwitch_threads (cond : Prop) [Decidable cond] (s4 : SystemState)
    (op : Option Nat) (pt : Nat) :
    (if cond then { s4 with current_process := op, current_page_table := pt } else s4).threads
      = s4.threads := by
  split <;> rfl

theorem procSwitch_processes (cond : Prop) [Decidable cond] (s4 : SystemState)
    (op : Option Nat) (pt : Nat) :
    (if cond then { s4 with current_process := op, current_page_table := pt } else s4).processes
      = s4.processes := by
  split <;> rfl

theorem procSwitch_now (cond : Prop) [Decidable cond] (s4 : SystemState)
    (op : Option Nat) (pt : Nat) :
    (if cond then { s4 with current_process := op, current_page_table := pt } else s4).now
      = s4.now := by
  split <;> rfl

theorem ULCST_sched_fields (s : SystemState) (core : Nat) (th pr : Option Nat) (d : Nat) :
    ((UpdateLastContextSwitchTime s core th pr).cores d).current_thread
        = (s.cores d).current_thread
    ∧ ((UpdateLastContextSwitchTime s core th pr).cores d).ready_queue
        = (s.cores d).ready_queue
    ∧ ((UpdateLastContextSwitchTime s core th pr).cores d).thread_list
        = (s.cores d).thread_list := by
  unfold UpdateLastContextSwitchTime
  cases th <;> cases pr <;>
    (by_cases hd : d = core <;> simp [updCore_cores, hd])

theorem ULCST_last_self (s : SystemState) (core : Nat) (th pr : Option Nat) :
    ((UpdateLastContextSwitchTime s core th pr).cores core).last_context_switch_time = s.now := by
  unfold UpdateLastContextSwitchTime
  cases th <;> cases pr <;> simp [updCore_cores]

theorem ULCST_thread_fields (s : SystemState) (core : Nat) (th pr : Option Nat) (j : Nat) :
    ((UpdateLastContextSwitchTime s core th pr).threads j).status = (s.threads j).status
    ∧ ((UpdateLastContextSwitchTime s core th pr).threads j).priority = (s.threads j).priority := by
  unfold UpdateLastContextSwitchTime
  cases th with
  | none => cases pr <;> simp
  | some t =>
    cases pr <;>
      (by_cases hj : j = t <;> simp [updThread_threads, hj])

theorem ULCST_ticks_some (s : SystemState) (core : Nat) (t : Nat) (pr : Option Nat) (j : Nat) :
    ((UpdateLastContextSwitchTime s core (some t) pr).threads j).cpu_time_ticks
      = if j = t then
          ((s.threads t).cpu_time_ticks
            + u64sub s.now ((s.cores core).last_context_switch_time)) % U64
        else (s.threads j).cpu_time_ticks := by
  unfold UpdateLastContextSwitchTime
  cases pr <;> (by_cases hj : j = t <;> simp [updThread_threads, hj])

theorem ULCST_ticks_none (s : SystemState) (core : Nat) (pr : Option Nat) (j : Nat) :
    ((UpdateLastContextSwitchTime s core none pr).threads j).cpu_time_ticks
      = (s.threads j).cpu_time_ticks := by
  unfold UpdateLastContextSwitchTime
  cases pr <;> simp

theorem ULCST_proc_ticks (s : SystemState) (core : Nat) (th : Option Nat) (q : Nat) :
    ((UpdateLastContextSwitchTime s core th (some q)).processes q).cpu_time_ticks
      = ((s.processes q).cpu_time_ticks
          + u64sub s.now ((s.cores core).last_context_switch_time)) % U64 := by
  unfold UpdateLastContextSwitchTime
  cases th <;> simp [updProcess_processes]

theorem ULCST_misc (s : SystemState) (core : Nat) (th pr : Option Nat) :
    (UpdateLastContextSwitchTime s core th pr).current_process = s.current_process
    ∧ (UpdateLastContextSwitchTime s core th pr).now = s.now := by
  unfold UpdateLastContextSwitchTime
  cases th <;> cases pr <;> simp

theorem saveContext_none {s : SystemState} {core : Nat}
    (h : (s.cores core).current_thread = none) : saveContext s core = s := by
  simp [saveContext, h]

theorem saveContext_running {s : SystemState} {core : Nat} {p : Nat}
    (hp : (s.cores core).current_thread = some p)
    (hr : (s.threads p).status = ThreadStatus.Running) :
    ((saveContext s core).cores core).ready_queue
        = qAdd ((s.cores core).ready_queue) p ((s.threads p).priority)
    ∧ (∀ d, ((saveContext s core).cores d).current_thread = (s.cores d).current_thread)
    ∧ (∀ d, ((saveContext s core).cores d).thread_list = (s.cores d).thread_list)
    ∧ (∀ d, ((saveContext s core).cores d).last_context_switch_time
        = (s.cores d).last_context_switch_time)
    ∧ (∀ d, d ≠ core → ((saveContext s core).cores d).ready_queue = (s.cores d).ready_queue)
    ∧ (∀ j, ((saveContext s core).threads j).status
        = if j = p then ThreadStatus.Ready else (s.threads j).status)
    ∧ (∀ j, ((saveContext s core).threads j).priority = (s.threads j).priority)
    ∧ (∀ j, ((saveContext s core).threads j).cpu_time_ticks = (s.threads j).cpu_time_ticks)
    ∧ (saveContext s core).processes = s.processes
    ∧ (saveContext s core).current_process = s.current_process
    ∧ (saveContext s core).now = s.now := by
  unfold saveContext
  rw [hp]
  simp only [updThread_threads_self]
  rw [if_pos hr]
  refine ⟨?_, ?_, ?_, ?_, ?_, ?_, ?_, ?_, ?_, ?_, ?_⟩
  · simp [updThread_threads, updCore_cores]
  · intro d; by_cases hd : d = core <;> simp [updThread_threads, updCore_cores, hd]
  · intro d; by_cases hd : d = core <;> simp [updThread_threads, updCore_cores, hd]
  · intro d; by_cases hd : d = core <;> simp [updThread_threads, updCore_cores, hd]
  · intro d hd; simp [updThread_threads, updCore_cores, hd]
  · intro j; by_cases hj : j = p <;> simp [updThread_threads, hj]
  · intro j; by_cases hj : j = p <;> simp [updThread_threads, hj]
  · intro j; by_cases hj : j = p <;> simp [updThread_threads, hj]
  · simp
  · simp
  · simp

theorem saveContext_not_running {s : SystemState} {core : Nat} {p : Nat}
    (hp : (s.cores core).current_thread = some p)
    (hr : (s.threads p).status ≠ ThreadStatus.Running) :
    (∀ d, (saveContext s core).cores d = s.cores d)
    ∧ (∀ j, ((saveContext s core).threads j).status = (s.threads j).status)
    ∧ (∀ j, ((saveContext s core).threads j).priority = (s.threads j).priority)
    ∧ (∀ j, ((saveContext s core).threads j).cpu_time_ticks = (s.threads j).cpu_time_ticks)
    ∧ (saveContext s core).processes = s.processes
    ∧ (saveContext s core).current_process = s.current_process
    ∧ (saveContext s core).now = s.now := by
  unfold saveContext
  rw [hp]
  simp only [updThread_threads_self]
  rw [if_neg hr]
  refine ⟨fun d => rfl, ?_, ?_, ?_, rfl, rfl, rfl⟩
  · intro j; by_cases hj : j = p <;> simp [updThread_threads, hj]
  · intro j; by_cases hj : j = p <;> simp [updThread_threads, hj]
  · intro j; by_cases hj : j = p <;> simp [updThread_threads, hj]

theorem loadContext_none_ok {s : SystemState} {core : Nat} {pp : Option Nat} {s' : SystemState}
    (h : loadContext s core pp none = Except.ok s') :
    s' = updCore s core (fun c => { c with current_thread := none }) := by
  simpa [loadContext] using h.symm

theorem loadContext_some_ok {s : SystemState} {core : Nat} {pp : Option Nat} {n : Nat}
    {s' : SystemState} (h : loadContext s core pp (some n) = Except.ok s') :
    (s.threads n).status = ThreadStatus.Ready
    ∧ (s'.cores core).current_thread = some n
    ∧ (s'.cores core).ready_queue
        = qRemove ((s.cores core).ready_queue) n ((s.threads n).priority)
    ∧ (∀ d, d ≠ core → s'.cores d = s.cores d)
    ∧ (s'.cores core).thread_list = (s.cores core).thread_list
    ∧ (s'.cores core).last_context_switch_time = (s.cores core).last_context_switch_time
    ∧ (∀ j, (s'.threads j).status
        = if j = n then ThreadStatus.Running else (s.threads j).status)
    ∧ (∀ j, (s'.threads j).priority = (s.threads j).priority)
    ∧ (∀ j, (s'.threads j).cpu_time_ticks = (s.threads j).cpu_time_ticks)
    ∧ (∀ q, (s'.processes q) = (s.processes q))
    ∧ s'.now = s.now := by
  by_cases hs : (s.threads n).status = ThreadStatus.Ready
  case neg => simp [loadContext, hs] at h
  simp only [loadContext] at h
  rw [if_neg (by simp [hs])] at h
  have hs' : s' = _ := (Except.ok.injEq _ _).mp h.symm
  subst hs'
  refine ⟨hs, ?_, ?_, ?_, ?_, ?_, ?_, ?_, ?_, ?_, ?_⟩
  · rw [updCpu_cores]
    rw [procSwitch_cores]
    simp [updThread_threads, updCore_cores]
  · rw [updCpu_cores]
    rw [procSwitch_cores]
    simp [updThread_threads, updCore_cores]
  · intro d hd
    rw [updCpu_cores]
    rw [procSwitch_cores]
    simp [updThread_threads, updCore_cores, hd]
  · rw [updCpu_cores]
    rw [procSwitch_cores]
    simp [updThread_threads, updCore_cores]
  · rw [updCpu_cores]
    rw [procSwitch_cores]
    simp [updThread_threads, updCore_cores]
  · intro j
    rw [updCpu_threads]
    rw [procSwitch_threads]
    by_cases hj : j = n <;> simp [updThread_threads, hj]
  · intro j
    rw [updCpu_threads]
    rw [procSwitch_threads]
    by_cases hj : j = n <;> simp [updThread_threads, hj]
  · intro j
    rw [updCpu_threads]
    rw [procSwitch_threads]
    by_cases hj : j = n <;> simp [updThread_threads, hj]
  · intro q
    rw [updCpu_processes]
    rw [procSwitch_processes]
    simp
  · rw [updCpu_now]
    rw [procSwitch_now]
    simp

theorem SleepZero_fields (s : SystemState) (t : Nat) :
    (∀ j, ((SleepZero s t).threads j).priority = (s.threads j).priority)
    ∧ (∀ j, ((SleepZero s t).threads j).affinity_mask = (s.threads j).affinity_mask)
    ∧ (∀ j, ((SleepZero s t).threads j).processor_id = (s.threads j).processor_id)
    ∧ (∀ j, ((SleepZero s t).threads j).status
        = if j = t then ThreadStatus.Waiting else (s.threads j).status)
    ∧ (SleepZero s t).cores = s.cores := by
  refine ⟨?_, ?_, ?_, ?_, rfl⟩ <;>
    (intro j; by_cases hj : j = t <;> simp [SleepZero, updThread_threads, hj])

/-! ## Selection lemmas -/

theorem qFront_eq_none {q : List (Nat × Nat)} : qFront q = none ↔ q = [] := by
  cases q <;> simp [qFront]

theorem qFront_eq_some {q : List (Nat × Nat)} {x : Nat} :
    qFront q = some x ↔ ∃ p rest, q = (x, p) :: rest := by
  cases q with
  | nil =>
    constructor
    · intro h; simp [qFront] at h
    · rintro ⟨p, rest, h⟩; cases h
  | cons a r =>
    obtain ⟨a1, a2⟩ := a
    constructor
    · intro h
      have hx : a1 = x := by simpa [qFront] using h
      subst hx
      exact ⟨a2, r, rfl⟩
    · rintro ⟨p, rest, h⟩
      rw [h]
      simp [qFront]

theorem popNext_none {th : Nat → Thread} {sc : SchedState}
    (h : PopNextReadyThread th sc = none) :
    sc.ready_queue = []
    ∧ (∀ c, sc.current_thread = some c → (th c).status ≠ ThreadStatus.Running) := by
  cases hc : sc.current_thread with
  | none =>
    simp only [PopNextReadyThread, hc] at h
    exact ⟨qFront_eq_none.mp h, fun c hcc => Option.noConfusion hcc⟩
  | some c =>
    by_cases hr : (th c).status = ThreadStatus.Running
    · cases hq : sc.ready_queue with
      | nil =>
        simp only [PopNextReadyThread, hc, hq, if_pos hr] at h
        exact Option.noConfusion h
      | cons e rest =>
        simp only [PopNextReadyThread, hc, hq, if_pos hr] at h
        by_cases hp : (th c).priority ≤ (th e.1).priority
        · rw [if_pos hp] at h; exact Option.noConfusion h
        · rw [if_neg hp] at h; exact Option.noConfusion h
    · simp only [PopNextReadyThread, hc, if_neg hr] at h
      refine ⟨qFront_eq_none.mp h, fun c' hcc => ?_⟩
      have hcc' : c' = c := ((Option.some.injEq _ _).mp hcc).symm
      rw [hcc']
      exact hr

theorem popNext_some {th : Nat → Thread} {sc : SchedState} {n : Nat}
    (h : PopNextReadyThread th sc = some n) :
    (sc.current_thread = some n ∧ (th n).status = ThreadStatus.Running)
    ∨ (∃ p rest, sc.ready_queue = (n, p) :: rest) := by
  cases hc : sc.current_thread with
  | none =>
    simp only [PopNextReadyThread, hc] at h
    exact Or.inr (qFront_eq_some.mp h)
  | some c =>
    by_cases hr : (th c).status = ThreadStatus.Running
    · cases hq : sc.ready_queue with
      | nil =>
        simp only [PopNextReadyThread, hc, hq, if_pos hr] at h
        have hcn : c = n := (Option.some.injEq _ _).mp h
        exact Or.inl ⟨by rw [hcn], by rw [← hcn]; exact hr⟩
      | cons e rest =>
        simp only [PopNextReadyThread, hc, hq, if_pos hr] at h
        by_cases hp : (th c).priority ≤ (th e.1).priority
        · rw [if_pos hp] at h
          have hcn : c = n := (Option.some.injEq _ _).mp h
          exact Or.inl ⟨by rw [hcn], by rw [← hcn]; exact hr⟩
        · rw [if_neg hp] at h
          have hen : e.1 = n := (Option.some.injEq _ _).mp h
          exact Or.inr ⟨e.2, rest, by subst hen; rfl⟩
    · simp only [PopNextReadyThread, hc, if_neg hr] at h
      exact Or.inr (qFront_eq_some.mp h)

/-- C1: PopNextReadyThread (the selection step of Reschedule) keeps the
    Running current thread when the ready queue is empty or its front's
    priority value is greater than or equal to the current thread's, picks
    the front exactly when the front's priority value is strictly smaller
    (preemption iff strictly better priority), and with no Running current
    thread returns the queue front, or none when the queue is empty. -/
theorem popNextReadyThread_selection (th : Nat → Thread) (sc : SchedState) :
    (∀ c, sc.current_thread = some c → (th c).status = ThreadStatus.Running →
      (sc.ready_queue = [] → PopNextReadyThread th sc = some c)
      ∧ (∀ e rest, sc.ready_queue = e :: rest →
          PopNextReadyThread th sc
            = if (th e.1).priority ≥ (th c).priority then some c else some e.1))
    ∧ ((∀ c, sc.current_thread = some c → (th c).status ≠ ThreadStatus.Running) →
        PopNextReadyThread th sc = qFront sc.ready_queue)
    ∧ (∀ s core, Reschedule s core
        = SwitchContext s core (PopNextReadyThread s.threads (s.cores core))) := by
  refine ⟨?_, ?_, fun s core => rfl⟩
  · intro c hc hr
    constructor
    · intro hq
      simp only [PopNextReadyThread, hc, hq, if_pos hr]
    · intro e rest hq
      simp only [PopNextReadyThread, hc, hq, if_pos hr]
  · intro hnr
    cases hc : sc.current_thread with
    | none => simp only [PopNextReadyThread, hc]
    | some c => simp only [PopNextReadyThread, hc, if_neg (hnr c hc)]

/-- Witness for C1: in `exSys1` core 0 runs thread 0 at priority 10 with
    thread 1 ready at priority 5, and selection preempts to thread 1;
    emptying the queue keeps thread 0. -/
theorem popNextReadyThread_selection_witness :
    PopNextReadyThread exThreads1 exSched1 = some 1
    ∧ PopNextReadyThread exThreads1 { exSched1 with ready_queue := [] } = some 0 := by
  constructor
  · have h := ((popNextReadyThread_selection exThreads1 exSched1).1 0 rfl
      (by decide)).2 (1, 5) [] rfl
    rw [h]
    decide
  · have h := ((popNextReadyThread_selection exThreads1
      { exSched1 with ready_queue := [] }).1 0 rfl (by decide)).1 rfl
    exact h

/-- C9: YieldAndWaitForLoadBalancing fails unconditionally with the
    unrecoverable unsupported-operation error, for every thread and every
    scheduler state; it returns no successor state at all. -/
theorem yieldAndWaitForLoadBalancing_always_fails :
    ∀ (s : SystemState) (thread : Nat),
      YieldAndWaitForLoadBalancing s thread = Except.error KError.unimplemented :=
  fun _ _ => rfl

/-- C10: AddThread ignores its priority argument — any two priorities
    produce identical states — and its only effect is appending the thread
    to this core's membership list: the thread store, the processes, the
    kernel state, the CPU interfaces, this core's ready queue, current
    thread and timestamp, and every other core are unchanged. -/
theorem addThread_ignores_priority (s : SystemState) (core thread p p' : Nat) :
    AddThread s core thread p = AddThread s core thread p'
    ∧ (AddThread s core thread p).threads = s.threads
    ∧ (AddThread s core thread p).processes = s.processes
    ∧ (AddThread s core thread p).current_process = s.current_process
    ∧ (AddThread s core thread p).current_page_table = s.current_page_table
    ∧ (AddThread s core thread p).cpus = s.cpus
    ∧ (AddThread s core thread p).now = s.now
    ∧ ((AddThread s core thread p).cores core).ready_queue = (s.cores core).ready_queue
    ∧ ((AddThread s core thread p).cores core).current_thread = (s.cores core).current_thread
    ∧ ((AddThread s core thread p).cores core).last_context_switch_time
        = (s.cores core).last_context_switch_time
    ∧ ((AddThread s core thread p).cores core).thread_list
        = (s.cores core).thread_list ++ [thread]
    ∧ (∀ d, d ≠ core → (AddThread s core thread p).cores d = s.cores d) := by
  refine ⟨rfl, rfl, rfl, rfl, rfl, rfl, rfl, ?_, ?_, ?_, ?_, ?_⟩
  · simp [AddThread]
  · simp [AddThread]
  · simp [AddThread]
  · simp [AddThread]
  · intro d hd
    simp [AddThread, updCore_cores, hd]

/-- Witness for C10: two different priorities give the same state in
    `exSys1`, membership grows by the new thread, and core 1 is untouched. -/
theorem addThread_ignores_priority_witness :
    AddThread exSys1 0 7 3 = AddThread exSys1 0 7 42
    ∧ ((AddThread exSys1 0 7 3).cores 0).thread_list = [0, 1, 7]
    ∧ (AddThread exSys1 0 7 3).cores 1 = exSys1.cores 1 := by
  obtain ⟨h1, _, _, _, _, _, _, _, _, _, h11, h12⟩ :=
    addThread_ignores_priority exSys1 0 7 3 42
  exact ⟨h1, by rw [h11]; rfl, h12 1 (by decide)⟩

/-! ## Cross-core suggestion: first-match characterization -/

theorem suggestScan_none_iff (s : SystemState) (mask maxp : Nat) (q : List (Nat × Nat)) :
    suggestScan s mask maxp q = none ↔
      ∀ e ∈ q, ¬((s.threads e.1).affinity_mask &&& mask ≠ 0
        ∧ (s.threads e.1).priority < maxp) := by
  induction q with
  | nil => simp [suggestScan]
  | cons a rest ih =>
    simp only [suggestScan]
    split
    · rename_i hcond
      constructor
      · intro h; exact Option.noConfusion h
      · intro hall; exact absurd hcond (hall a (List.mem_cons_self _ _))
    · rename_i hcond
      rw [ih]
      constructor
      · intro hall e he
        rcases List.mem_cons.mp he with rfl | he'
        · exact hcond
        · exact hall e he'
      · intro hall e he
        exact hall e (List.mem_cons_of_mem _ he)

theorem suggestScan_some_iff (s : SystemState) (mask maxp : Nat) (q : List (Nat × Nat))
    (t : Nat) :
    suggestScan s mask maxp q = some t ↔
      ∃ l1 e l2, q = l1 ++ e :: l2 ∧ e.1 = t
        ∧ ((s.threads e.1).affinity_mask &&& mask ≠ 0 ∧ (s.threads e.1).priority < maxp)
        ∧ ∀ e' ∈ l1, ¬((s.threads e'.1).affinity_mask &&& mask ≠ 0
            ∧ (s.threads e'.1).priority < maxp) := by
  induction q with
  | nil =>
    simp only [suggestScan]
    constructor
    · intro h; exact Option.noConfusion h
    · rintro ⟨l1, e, l2, heq, -⟩
      exact absurd heq (by simp)
  | cons a rest ih =>
    simp only [suggestScan]
    split
    · rename_i hcond
      constructor
      · intro h
        have ha : a.1 = t := (Option.some.injEq _ _).mp h
        exact ⟨[], a, rest, rfl, ha, hcond, by simp⟩
      · rintro ⟨l1, e, l2, heq, ht, hpred, hall⟩
        cases l1 with
        | nil =>
          simp only [List.nil_append, List.cons.injEq] at heq
          rw [heq.1, ht]
        | cons b l1' =>
          simp only [List.cons_append, List.cons.injEq] at heq
          exact absurd (heq.1 ▸ hcond) (hall b (List.mem_cons_self _ _))
    · rename_i hcond
      rw [ih]
      constructor
      · rintro ⟨l1, e, l2, heq, ht, hpred, hall⟩
        refine ⟨a :: l1, e, l2, by simp [heq], ht, hpred, ?_⟩
        intro e' he'
        rcases List.mem_cons.mp he' with rfl | he''
        · exact hcond
        · exact hall e' he''
      · rintro ⟨l1, e, l2, heq, ht, hpred, hall⟩
        cases l1 with
        | nil =>
          simp only [List.nil_append, List.cons.injEq] at heq
          exact absurd (heq.1 ▸ hpred) hcond
        | cons b l1' =>
          simp only [List.cons_append, List.cons.injEq] at heq
          refine ⟨l1', e, l2, heq.2, ht, hpred, ?_⟩
          intro e' he'
          exact hall e' (List.mem_cons_of_mem _ he')

/-- C5: GetNextSuggestedThread returns exactly the first entry of this
    core's ready-queue iteration order whose affinity mask contains the
    requesting core's bit and whose priority is strictly below
    maximum_priority, and none when no entry qualifies. The embedded
    function consumes the state and produces only a thread id, matching
    the const method of the source: the call mutates no scheduler or
    thread state. -/
theorem getNextSuggestedThread_first_match (s : SystemState) (selfCore core maxp : Nat) :
    (GetNextSuggestedThread s selfCore core maxp = none ↔
      ∀ e ∈ (s.cores selfCore).ready_queue,
        ¬((s.threads e.1).affinity_mask &&& (1 <<< core) ≠ 0
          ∧ (s.threads e.1).priority < maxp))
    ∧ (∀ t, GetNextSuggestedThread s selfCore core maxp = some t ↔
      ∃ l1 e l2, (s.cores selfCore).ready_queue = l1 ++ e :: l2 ∧ e.1 = t
        ∧ ((s.threads e.1).affinity_mask &&& (1 <<< core) ≠ 0
          ∧ (s.threads e.1).priority < maxp)
        ∧ ∀ e' ∈ l1, ¬((s.threads e'.1).affinity_mask &&& (1 <<< core) ≠ 0
            ∧ (s.threads e'.1).priority < maxp)) :=
  ⟨suggestScan_none_iff s (1 <<< core) maxp (s.cores selfCore).ready_queue,
   fun t => suggestScan_some_iff s (1 <<< core) maxp (s.cores selfCore).ready_queue t⟩

/-- Witness for C5: in `exSys5` the front entry (thread 2, priority 3) is
    skipped because its affinity excludes core 0, and thread 1 is
    returned. -/
theorem getNextSuggestedThread_first_match_witness :
    GetNextSuggestedThread exSys5 0 0 10 = some 1 :=
  ((getNextSuggestedThread_first_match exSys5 0 0 10).2 1).mpr
    ⟨[(2, 3)], (1, 5), [], rfl, rfl, by decide, by decide⟩

/-- C7: SetThreadPriority is a no-op when the new priority equals the
    recorded one; otherwise a Ready thread is repositioned in the ready
    queue from its old priority level to the new one and its recorded
    priority updated, while a non-Ready thread has only its recorded
    priority changed — no queue of any core is touched and no other
    thread changes. Hence a second call with the same priority is a no-op
    and selection is identical before and after a no-op call. -/
theorem setThreadPriority_behavior (s : SystemState) (core thread p : Nat) :
    ((s.threads thread).priority = p → SetThreadPriority s core thread p = s)
    ∧ ((s.threads thread).priority ≠ p → (s.threads thread).status = ThreadStatus.Ready →
        ((SetThreadPriority s core thread p).cores core).ready_queue
          = qAdjust ((s.cores core).ready_queue) thread ((s.threads thread).priority) p
        ∧ ((SetThreadPriority s core thread p).threads thread).priority = p)
    ∧ ((s.threads thread).priority ≠ p → (s.threads thread).status ≠ ThreadStatus.Ready →
        (∀ d, (SetThreadPriority s core thread p).cores d = s.cores d)
        ∧ ((SetThreadPriority s core thread p).threads thread)
            = { s.threads thread with priority := p }
        ∧ (∀ j, j ≠ thread → (SetThreadPriority s core thread p).threads j = s.threads j))
    ∧ (SetThreadPriority (SetThreadPriority s core thread p) core thread p
        = SetThreadPriority s core thread p)
    ∧ ((s.threads thread).priority = p →
        PopNextReadyThread (SetThreadPriority s core thread p).threads
            ((SetThreadPriority s core thread p).cores core)
          = PopNextReadyThread s.threads (s.cores core)) := by
  have hnoop : (s.threads thread).priority = p → SetThreadPriority s core thread p = s := by
    intro h
    simp [SetThreadPriority, h]
  have hprio : ((SetThreadPriority s core thread p).threads thread).priority = p := by
    by_cases h : (s.threads thread).priority = p
    · rw [hnoop h]; exact h
    · simp only [SetThreadPriority, if_neg h, updThread_threads_self]
  refine ⟨hnoop, ?_, ?_, ?_, ?_⟩
  · intro h hs
    constructor
    · simp only [SetThreadPriority, if_neg h, if_pos hs, updThread_cores, updCore_cores_self]
    · exact hprio
  · intro h hs
    refine ⟨?_, ?_, ?_⟩
    · intro d
      simp only [SetThreadPriority, if_neg h, if_neg hs, updThread_cores]
    · simp only [SetThreadPriority, if_neg h, if_neg hs, updThread_threads_self]
    · intro j hj
      simp only [SetThreadPriority, if_neg h, if_neg hs]
      exact updThread_threads_other _ _ _ _ hj
  · set X := SetThreadPriority s core thread p with hX
    rw [SetThreadPriority]
    rw [if_pos hprio]
  · intro h
    rw [hnoop h]

/-- Witness for C7: repositioning thread 1 from priority 5 to 8 in
    `exSys7`, the same-priority no-op, and the idempotent second call. -/
theorem setThreadPriority_behavior_witness :
    SetThreadPriority exSys7 0 1 5 = exSys7
    ∧ ((SetThreadPriority exSys7 0 1 8).cores 0).ready_queue = qAdjust [(1, 5)] 1 5 8
    ∧ ((SetThreadPriority exSys7 0 1 8).threads 1).priority = 8
    ∧ qAdjust [(1, 5)] 1 5 8 = [(1, 8)]
    ∧ SetThreadPriority (SetThreadPriority exSys7 0 1 8) 0 1 8
        = SetThreadPriority exSys7 0 1 8 := by
  obtain ⟨-, h2, -, h4, -⟩ := setThreadPriority_behavior exSys7 0 1 8
  refine ⟨(setThreadPriority_behavior exSys7 0 1 5).1 (by decide), ?_, ?_, by decide, h4⟩
  · rw [(h2 (by decide) (by decide)).1]
    rfl
  · exact (h2 (by decide) (by decide)).2

/-- C4 (evaluation at the failing input): the candidate-collection loop of
    YieldWithLoadBalancing in the source iterates over all cores with no
    skip of the yielding thread's own core. In `exSys4` the only eligible
    candidate (thread 1) sits in the yielding core 0's own ready queue:
    the source's loop selects it and migrates it, while the loop as the
    specification (and the source's own comment) describes it — querying
    every core except core 0 — finds no candidate. -/
theorem yieldWithLoadBalancing_queries_own_core :
    suggestLoop (SleepZero exSys4 0) 0 10 = some 1
    ∧ suggestLoopSpec (SleepZero exSys4 0) 0 10 = none
    ∧ GetNextSuggestedThread (SleepZero exSys4 0) 0 0 10 = some 1
    ∧ GetNextSuggestedThread (SleepZero exSys4 0) 1 0 10 = none
    ∧ GetNextSuggestedThread (SleepZero exSys4 0) 2 0 10 = none
    ∧ GetNextSuggestedThread (SleepZero exSys4 0) 3 0 10 = none
    ∧ (YieldWithLoadBalancing exSys4 0 0).toOption.map
        (fun s2 => (s2.threads 1).processor_id) = some 0
    ∧ (exSys4.threads 1).processor_id = 1 := by
  decide

/-- C6: when YieldWithLoadBalancing completes and found a migration
    candidate, that candidate's assigned processor becomes the yielding
    thread's core while its affinity mask is exactly preserved, and no
    other thread's processor or mask changes; when no candidate was
    found, no thread's processor or affinity mask changes at all. -/
theorem yieldWithLoadBalancing_migration (s : SystemState) (selfCore thread : Nat)
    (s' : SystemState) (h : YieldWithLoadBalancing s selfCore thread = Except.ok s') :
    (∀ sug, yieldCandidate s selfCore thread = some sug →
      (s'.threads sug).processor_id = (s.threads thread).processor_id
      ∧ (s'.threads sug).affinity_mask = (s.threads sug).affinity_mask
      ∧ (∀ j, j ≠ sug → (s'.threads j).processor_id = (s.threads j).processor_id
          ∧ (s'.threads j).affinity_mask = (s.threads j).affinity_mask))
    ∧ (yieldCandidate s selfCore thread = none →
      ∀ j, (s'.threads j).processor_id = (s.threads j).processor_id
        ∧ (s'.threads j).affinity_mask = (s.threads j).affinity_mask) := by
  by_cases hrun : (s.threads thread).status = ThreadStatus.Running
  case neg =>
    simp only [YieldWithLoadBalancing, if_pos hrun] at h
    exact Except.noConfusion h
  by_cases hpr : (s.threads thread).priority < THREADPRIO_COUNT
  case neg =>
    simp only [YieldWithLoadBalancing, if_neg (not_not_intro hrun), if_pos hpr] at h
    exact Except.noConfusion h
  cases hcur : (s.cores selfCore).current_thread with
  | none =>
    simp only [YieldWithLoadBalancing, if_neg (not_not_intro hrun),
      if_neg (not_not_intro hpr), hcur] at h
    exact Except.noConfusion h
  | some cur =>
    obtain ⟨hpri, haff, hproc, hstat, hcores⟩ := SleepZero_fields s cur
    cases hsug : suggestLoop (SleepZero s cur) ((s.threads thread).processor_id)
        ((s.threads thread).priority) with
    | none =>
      simp only [YieldWithLoadBalancing, if_neg (not_not_intro hrun),
        if_neg (not_not_intro hpr), hcur, hsug] at h
      have hs' : s' = SleepZero s cur := ((Except.ok.injEq _ _).mp h).symm
      subst hs'
      constructor
      · intro sug hc
        simp only [yieldCandidate, hcur] at hc
        rw [hsug] at hc
        exact Option.noConfusion hc
      · intro _ j
        exact ⟨hproc j, haff j⟩
    | some sug0 =>
      simp only [YieldWithLoadBalancing, if_neg (not_not_intro hrun),
        if_neg (not_not_intro hpr), hcur, hsug] at h
      have hs' : s' = ChangeCore (SleepZero s cur) sug0 ((s.threads thread).processor_id)
          (((SleepZero s cur).threads sug0).affinity_mask) := ((Except.ok.injEq _ _).mp h).symm
      subst hs'
      constructor
      · intro sug hc
        simp only [yieldCandidate, hcur] at hc
        rw [hsug] at hc
        have hsg : sug0 = sug := (Option.some.injEq _ _).mp hc
        subst hsg
        refine ⟨?_, ?_, ?_⟩
        · simp only [ChangeCore, updThread_threads_self]
        · simp only [ChangeCore, updThread_threads_self]
          exact haff sug0
        · intro j hj
          simp only [ChangeCore]
          rw [updThread_threads_other _ _ _ _ hj]
          exact ⟨hproc j, haff j⟩
      · intro hc
        simp only [yieldCandidate, hcur] at hc
        rw [hsug] at hc
        exact Option.noConfusion hc

/-- Witness for C6: in `exSys6`, core 0's running thread 0 yields, the
    candidate thread 2 (ready on core 1, affinity for cores 0 and 1) is
    migrated: its processor becomes core 0 (it was 1) and its affinity
    mask stays 3. -/
theorem yieldWithLoadBalancing_migration_witness :
    ((yieldD exSys6 0 0).threads 2).processor_id = 0
    ∧ ((yieldD exSys6 0 0).threads 2).affinity_mask = 3
    ∧ (exSys6.threads 2).processor_id = 1 := by
  have h := yieldWithLoadBalancing_migration exSys6 0 0 (yieldD exSys6 0 0) rfl
  have hc : yieldCandidate exSys6 0 0 = some 2 := by decide
  obtain ⟨h1, h2, -⟩ := h.1 2 hc
  refine ⟨?_, ?_, by decide⟩
  · rw [h1]; decide
  · rw [h2]; decide

/-- C3: in every completed SwitchContext with an outgoing current thread,
    the save phase re-inserts the outgoing thread into the ready queue at
    its priority and demotes it to Ready exactly when it is still Running
    at switch time; consequently, when a different (or no) thread is
    loaded, the final state has the displaced thread in the ready queue at
    its priority with status Ready. When the outgoing thread is not
    Running (it yielded or sleeps), nothing is added to the ready queue
    and, unless it is itself the incoming thread, its status is
    untouched. -/
theorem switchContext_requeues_displaced (s : SystemState) (core : Nat) (p : Nat)
    (nt : Option Nat) (s' : SystemState)
    (hp : (s.cores core).current_thread = some p)
    (h : SwitchContext s core nt = Except.ok s') :
    ((s.threads p).status = ThreadStatus.Running →
      ((saveContext (UpdateLastContextSwitchTime s core (some p) s.current_process)
          core).cores core).ready_queue
        = qAdd ((s.cores core).ready_queue) p ((s.threads p).priority)
      ∧ ((saveContext (UpdateLastContextSwitchTime s core (some p) s.current_process)
          core).threads p).status = ThreadStatus.Ready
      ∧ (nt ≠ some p → (p, (s.threads p).priority) ∈ (s'.cores core).ready_queue
          ∧ (s'.threads p).status = ThreadStatus.Ready))
    ∧ ((s.threads p).status ≠ ThreadStatus.Running →
      (∀ e ∈ (s'.cores core).ready_queue, e ∈ (s.cores core).ready_queue)
      ∧ (nt ≠ some p → (s'.threads p).status = (s.threads p).status)) := by
  simp only [SwitchContext] at h
  rw [hp] at h
  set s1 := UpdateLastContextSwitchTime s core (some p) s.current_process with hs1
  set s2 := saveContext s1 core with hs2
  obtain ⟨hc1, hq1, hl1⟩ := ULCST_sched_fields s core (some p) s.current_process core
  have hst1 : ∀ j, (s1.threads j).status = (s.threads j).status :=
    fun j => (ULCST_thread_fields s core (some p) s.current_process j).1
  have hpr1 : ∀ j, (s1.threads j).priority = (s.threads j).priority :=
    fun j => (ULCST_thread_fields s core (some p) s.current_process j).2
  constructor
  · intro hr
    obtain ⟨Sq, Sc, Sl, SL, Sq2, Sst, Spr, Stk, Sprc, Scp, Snow⟩ :=
      @saveContext_running s1 core p
        (hc1.trans hp) (by rw [hst1 p]; exact hr)
    have hq2 : (s2.cores core).ready_queue
        = qAdd ((s.cores core).ready_queue) p ((s.threads p).priority) := by
      rw [Sq, hq1, hpr1 p]
    have hst2 : (s2.threads p).status = ThreadStatus.Ready := by
      rw [Sst p]; simp
    refine ⟨hq2, hst2, ?_⟩
    intro hnt
    cases nt with
    | none =>
      have he := loadContext_none_ok h
      subst he
      constructor
      · rw [updCore_cores_self]
        show (p, (s.threads p).priority) ∈ (s2.cores core).ready_queue
        rw [hq2]
        exact mem_qAdd.mpr (Or.inr rfl)
      · show ((updCore s2 core _).threads p).status = ThreadStatus.Ready
        rw [updCore_threads]
        exact hst2
    | some n =>
      have hne : n ≠ p := fun hh => hnt (by rw [hh])
      obtain ⟨hnR, hcur', hq', hcores', hl', hlast', hst', hpr', htk', hproc', hnow'⟩ :=
        loadContext_some_ok h
      constructor
      · rw [hq']
        apply mem_qRemove_of_ne
        · rw [hq2]
          exact mem_qAdd.mpr (Or.inr rfl)
        · exact fun hh => hne (hh.symm)
      · rw [hst' p, if_neg (fun hh => hne hh.symm)]
        exact hst2
  · intro hr
    obtain ⟨Nc, Nst, Npr, Ntk, Nprc, Ncp, Nnow⟩ :=
      @saveContext_not_running s1 core p
        (hc1.trans hp) (by rw [hst1 p]; exact hr)
    have hq2 : (s2.cores core).ready_queue = (s.cores core).ready_queue := by
      rw [Nc core, hq1]
    have hst2 : (s2.threads p).status = (s.threads p).status := by
      rw [Nst p, hst1 p]
    cases nt with
    | none =>
      have he := loadContext_none_ok h
      subst he
      constructor
      · intro e he2
        rw [updCore_cores_self] at he2
        rw [hq2] at he2
        exact he2
      · intro _
        show ((updCore s2 core _).threads p).status = (s.threads p).status
        rw [updCore_threads]
        exact hst2
    | some n =>
      obtain ⟨hnR, hcur', hq', hcores', hl', hlast', hst', hpr', htk', hproc', hnow'⟩ :=
        loadContext_some_ok h
      constructor
      · intro e he2
        rw [hq'] at he2
        rw [← hq2]
        exact mem_of_mem_qRemove he2
      · intro hnt
        have hne : n ≠ p := fun hh => hnt (by rw [hh])
        rw [hst' p, if_neg (fun hh => hne hh.symm)]
        exact hst2

/-- Witness for C3: rescheduling `exSys1` (thread 0 Running at priority
    10, thread 1 Ready at priority 5 preempting it) leaves thread 0 in
    the ready queue at priority 10 with status Ready. -/
theorem switchContext_requeues_displaced_witness :
    (0, 10) ∈ ((rescheduleD exSys1 0).cores 0).ready_queue
    ∧ ((rescheduleD exSys1 0).threads 0).status = ThreadStatus.Ready := by
  have h := switchContext_requeues_displaced exSys1 0 0 (some 1) (rescheduleD exSys1 0)
    rfl rfl
  have h2 := (h.1 (by decide)).2.2 (by decide)
  exact h2

theorem SwitchContext_post {s : SystemState} {core : Nat} {nt : Option Nat} {s' : SystemState}
    (h : SwitchContext s core nt = Except.ok s') :
    (s'.cores core).current_thread = nt
    ∧ (s'.cores core).thread_list = (s.cores core).thread_list
    ∧ (∀ j, (s'.threads j).priority = (s.threads j).priority)
    ∧ (∀ j, (s'.threads j).status =
        if nt = some j then ThreadStatus.Running
        else if (s.cores core).current_thread = some j
            ∧ (s.threads j).status = ThreadStatus.Running then ThreadStatus.Ready
        else (s.threads j).status)
    ∧ (∀ n, nt = some n → (s'.cores core).ready_queue
        = qRemove (postSaveQueue s core) n ((s.threads n).priority))
    ∧ (nt = none → (s'.cores core).ready_queue = postSaveQueue s core) := by
  simp only [SwitchContext] at h
  cases hc : (s.cores core).current_thread with
  | none =>
    rw [hc] at h
    obtain ⟨u1, u2, u3⟩ := ULCST_sched_fields s core none s.current_process core
    rw [saveContext_none (u1.trans hc)] at h
    have upri : ∀ j, ((UpdateLastContextSwitchTime s core none s.current_process).threads
        j).priority = (s.threads j).priority :=
      fun j => (ULCST_thread_fields s core none s.current_process j).2
    have ust : ∀ j, ((UpdateLastContextSwitchTime s core none s.current_process).threads
        j).status = (s.threads j).status :=
      fun j => (ULCST_thread_fields s core none s.current_process j).1
    cases nt with
    | none =>
      have he := loadContext_none_ok h
      subst he
      refine ⟨by simp, ?_, ?_, ?_, ?_, ?_⟩
      · simp only [updCore_cores_self]
        exact u3
      · intro j
        simp only [updCore_threads]
        exact upri j
      · intro j
        simp only [updCore_threads]
        rw [ust j]
        simp
      · intro n hn
        exact Option.noConfusion hn
      · intro _
        simp only [updCore_cores_self]
        rw [u2]
        simp [postSaveQueue, hc]
    | some n =>
      obtain ⟨lR, lcur, lq, lco, ltl, llast, lst, lpr, ltk, lproc, lnow⟩ :=
        loadContext_some_ok h
      refine ⟨lcur, ?_, ?_, ?_, ?_, ?_⟩
      · rw [ltl]; exact u3
      · intro j; rw [lpr j]; exact upri j
      · intro j
        rw [lst j]
        by_cases hjn : j = n
        · subst hjn; simp [ust j]
        · rw [if_neg hjn, ust j]
          simp [Ne.symm hjn]
      · intro n' hn'
        have hnn : n = n' := (Option.some.injEq _ _).mp hn'
        subst hnn
        rw [lq, u2, upri n]
        simp [postSaveQueue, hc]
      · intro hn
        exact Option.noConfusion hn
  | some p =>
    rw [hc] at h
    obtain ⟨u1, u2, u3⟩ := ULCST_sched_fields s core (some p) s.current_process core
    have upri : ∀ j, ((UpdateLastContextSwitchTime s core (some p) s.current_process).threads
        j).priority = (s.threads j).priority :=
      fun j => (ULCST_thread_fields s core (some p) s.current_process j).2
    have ust : ∀ j, ((UpdateLastContextSwitchTime s core (some p) s.current_process).threads
        j).status = (s.threads j).status :=
      fun j => (ULCST_thread_fields s core (some p) s.current_process j).1
    by_cases hr : (s.threads p).status = ThreadStatus.Running
    · obtain ⟨Sq, Sc, Sl, SL, Sq2, Sst, Spr, Stk, Sprc, Scp, Snow⟩ :=
        @saveContext_running (UpdateLastContextSwitchTime s core (some p) s.current_process)
          core p (u1.trans hc) (by rw [ust p]; exact hr)
      have q2eq : ((saveContext (UpdateLastContextSwitchTime s core (some p)
          s.current_process) core).cores core).ready_queue = postSaveQueue s core := by
        rw [Sq, u2, upri p]
        simp [postSaveQueue, hc, hr]
      have st2 : ∀ j, ((saveContext (UpdateLastContextSwitchTime s core (some p)
          s.current_process) core).threads j).status
          = if j = p then ThreadStatus.Ready else (s.threads j).status := by
        intro j
        rw [Sst j]
        by_cases hj : j = p <;> simp [hj, ust j]
      have pr2 : ∀ j, ((saveContext (UpdateLastContextSwitchTime s core (some p)
          s.current_process) core).threads j).priority = (s.threads j).priority :=
        fun j => (Spr j).trans (upri j)
      have tl2 : ((saveContext (UpdateLastContextSwitchTime s core (some p)
          s.current_process) core).cores core).thread_list = (s.cores core).thread_list :=
        (Sl core).trans u3
      cases nt with
      | none =>
        have he := loadContext_none_ok h
        subst he
        refine ⟨by simp, ?_, ?_, ?_, ?_, ?_⟩
        · simp only [updCore_cores_self]
          exact tl2
        · intro j
          simp only [updCore_threads]
          exact pr2 j
        · intro j
          simp only [updCore_threads]
          rw [st2 j]
          by_cases hj : j = p
          · subst hj; simp [hr]
          · simp [hj, Ne.symm hj]
        · intro n hn
          exact Option.noConfusion hn
        · intro _
          simp only [updCore_cores_self]
          rw [q2eq]
      | some n =>
        obtain ⟨lR, lcur, lq, lco, ltl, llast, lst, lpr, ltk, lproc, lnow⟩ :=
          loadContext_some_ok h
        refine ⟨lcur, ?_, ?_, ?_, ?_, ?_⟩
        · rw [ltl]; exact tl2
        · intro j; rw [lpr j]; exact pr2 j
        · intro j
          rw [lst j]
          by_cases hjn : j = n
          · subst hjn; simp
          · rw [if_neg hjn, st2 j]
            by_cases hjp : j = p
            · subst hjp
              simp [hr, Ne.symm hjn]
            · rw [if_neg hjp]
              simp [Ne.symm hjn, Ne.symm hjp]
        · intro n' hn'
          have hnn : n = n' := (Option.some.injEq _ _).mp hn'
          subst hnn
          rw [lq, q2eq, pr2 n]
        · intro hn
          exact Option.noConfusion hn
    · obtain ⟨Nc, Nst, Npr, Ntk, Nprc, Ncp, Nnow⟩ :=
        @saveContext_not_running (UpdateLastContextSwitchTime s core (some p) s.current_process)
          core p (u1.trans hc) (by rw [ust p]; exact hr)
      have q2eq : ((saveContext (UpdateLastContextSwitchTime s core (some p)
          s.current_process) core).cores core).ready_queue = postSaveQueue s core := by
        rw [Nc core, u2]
        simp [postSaveQueue, hc, hr]
      have st2 : ∀ j, ((saveContext (UpdateLastContextSwitchTime s core (some p)
          s.current_process) core).threads j).status = (s.threads j).status :=
        fun j => (Nst j).trans (ust j)
      have pr2 : ∀ j, ((saveContext (UpdateLastContextSwitchTime s core (some p)
          s.current_process) core).threads j).priority = (s.threads j).priority :=
        fun j => (Npr j).trans (upri j)
      have tl2 : ((saveContext (UpdateLastContextSwitchTime s core (some p)
          s.current_process) core).cores core).thread_list = (s.cores core).thread_list := by
        rw [Nc core]; exact u3
      cases nt with
      | none =>
        have he := loadContext_none_ok h
        subst he
        refine ⟨by simp, ?_, ?_, ?_, ?_, ?_⟩
        · simp only [updCore_cores_self]
          exact tl2
        · intro j
          simp only [updCore_threads]
          exact pr2 j
        · intro j
          simp only [updCore_threads]
          rw [st2 j]
          by_cases hj : j = p
          · subst hj; simp [hr]
          · simp [hj, Ne.symm hj]
        · intro n hn
          exact Option.noConfusion hn
        · intro _
          simp only [updCore_cores_self]
          rw [q2eq]
      | some n =>
        obtain ⟨lR, lcur, lq, lco, ltl, llast, lst, lpr, ltk, lproc, lnow⟩ :=
          loadContext_some_ok h
        refine ⟨lcur, ?_, ?_, ?_, ?_, ?_⟩
        · rw [ltl]; exact tl2
        · intro j; rw [lpr j]; exact pr2 j
        · intro j
          rw [lst j]
          by_cases hjn : j = n
          · subst hjn; simp
          · rw [if_neg hjn, st2 j]
            by_cases hjp : j = p
            · subst hjp
              simp [hr, Ne.symm hjn]
            · simp [Ne.symm hjn, Ne.symm hjp]
        · intro n' hn'
          have hnn : n = n' := (Option.some.injEq _ _).mp hn'
          subst hnn
          rw [lq, q2eq, pr2 n]
        · intro hn
          exact Option.noConfusion hn

/-- C2: starting from a well-formed core state, after every completed
    Reschedule the resulting current thread (if any) is not present in the
    ready queue, and at most one thread registered with the core has
    status Running (any two registered Running threads are equal). -/
theorem reschedule_queue_exclusive (s : SystemState) (core : Nat) (s' : SystemState)
    (hwf : WF s core) (h : Reschedule s core = Except.ok s') :
    (∀ c ∈ (s'.cores core).current_thread.toList,
        c ∉ (s'.cores core).ready_queue.map Prod.fst)
    ∧ (∀ t1 ∈ (s'.cores core).thread_list, ∀ t2 ∈ (s'.cores core).thread_list,
        (s'.threads t1).status = ThreadStatus.Running →
        (s'.threads t2).status = ThreadStatus.Running → t1 = t2) := by
  obtain ⟨W1, W2, W3, W4⟩ := hwf
  simp only [Reschedule] at h
  obtain ⟨hcur', htl', hpr', hst', hqs, hqn⟩ := SwitchContext_post h
  have hnodupSave : ((postSaveQueue s core).map Prod.fst).Nodup := by
    unfold postSaveQueue
    split
    · rename_i p heq
      split
      · apply nodup_ids_qAdd
        · exact W3 p (by rw [heq]; simp)
        · exact W2
      · exact W2
    · exact W2
  have hallSave : ∀ e ∈ postSaveQueue s core, e.2 = (s.threads e.1).priority := by
    intro e he
    unfold postSaveQueue at he
    split at he
    · rename_i p heq
      split at he
      · rcases mem_qAdd.mp he with h1 | h1
        · exact (W1 e h1).2
        · rw [h1]
      · exact (W1 e he).2
    · exact (W1 e he).2
  constructor
  · intro c hcl
    rw [hcur'] at hcl
    have hnc : PopNextReadyThread s.threads (s.cores core) = some c := by
      cases hpn : PopNextReadyThread s.threads (s.cores core) with
      | none => rw [hpn] at hcl; cases hcl
      | some x =>
        rw [hpn] at hcl
        simp only [Option.toList_some, List.mem_singleton] at hcl
        rw [hcl]
    rw [hqs c hnc]
    apply not_mem_ids_qRemove hnodupSave
    intro e he hec
    rw [hallSave e he, hec]
  · have key : ∀ t ∈ (s'.cores core).thread_list,
        (s'.threads t).status = ThreadStatus.Running →
        PopNextReadyThread s.threads (s.cores core) = some t := by
      intro t ht hrt
      rw [hst' t] at hrt
      by_cases h1 : PopNextReadyThread s.threads (s.cores core) = some t
      · exact h1
      · rw [if_neg h1] at hrt
        by_cases h2 : (s.cores core).current_thread = some t
            ∧ (s.threads t).status = ThreadStatus.Running
        · rw [if_pos h2] at hrt
          exact absurd hrt (by decide)
        · rw [if_neg h2] at hrt
          rw [htl'] at ht
          exact absurd ⟨W4 t ht hrt, hrt⟩ h2
    intro t1 ht1 t2 ht2 hr1 hr2
    have k1 := key t1 ht1 hr1
    have k2 := key t2 ht2 hr2
    rw [k1] at k2
    exact (Option.some.injEq _ _).mp k2

/-- Witness for C2: `exSys1` is well formed; rescheduling it makes
    thread 1 current, and thread 1 is absent from the resulting ready
    queue (which holds only the displaced thread 0). -/
theorem reschedule_queue_exclusive_witness :
    WF exSys1 0
    ∧ ((rescheduleD exSys1 0).cores 0).current_thread = some 1
    ∧ 1 ∉ ((rescheduleD exSys1 0).cores 0).ready_queue.map Prod.fst := by
  have hwf : WF exSys1 0 := by
    unfold WF
    decide
  have h := reschedule_queue_exclusive exSys1 0 (rescheduleD exSys1 0) hwf rfl
  exact ⟨hwf, by decide, h.1 1 (by decide)⟩

theorem SwitchContext_acct {s : SystemState} {core : Nat} {nt : Option Nat} {s' : SystemState}
    (h : SwitchContext s core nt = Except.ok s') :
    (s'.cores core).last_context_switch_time = s.now
    ∧ (∀ p, (s.cores core).current_thread = some p →
        ∀ j, (s'.threads j).cpu_time_ticks =
          if j = p then ((s.threads j).cpu_time_ticks
            + u64sub s.now ((s.cores core).last_context_switch_time)) % U64
          else (s.threads j).cpu_time_ticks)
    ∧ ((s.cores core).current_thread = none →
        ∀ j, (s'.threads j).cpu_time_ticks = (s.threads j).cpu_time_ticks)
    ∧ (∀ q, s.current_process = some q →
        (s'.processes q).cpu_time_ticks = ((s.processes q).cpu_time_ticks
          + u64sub s.now ((s.cores core).last_context_switch_time)) % U64) := by
  simp only [SwitchContext] at h
  cases hc : (s.cores core).current_thread with
  | none =>
    rw [hc] at h
    obtain ⟨u1, u2, u3⟩ := ULCST_sched_fields s core none s.current_process core
    rw [saveContext_none (u1.trans hc)] at h
    have hticks : ∀ j, ((UpdateLastContextSwitchTime s core none s.current_process).threads
        j).cpu_time_ticks = (s.threads j).cpu_time_ticks :=
      fun j => ULCST_ticks_none s core s.current_process j
    have hlastu : ((UpdateLastContextSwitchTime s core none s.current_process).cores
        core).last_context_switch_time = s.now := ULCST_last_self s core none s.current_process
    have hproc : ∀ q, s.current_process = some q →
        ((UpdateLastContextSwitchTime s core none s.current_process).processes
          q).cpu_time_ticks = ((s.processes q).cpu_time_ticks
            + u64sub s.now ((s.cores core).last_context_switch_time)) % U64 := by
      intro q hq
      rw [hq]
      exact ULCST_proc_ticks s core none q
    cases nt with
    | none =>
      have he := loadContext_none_ok h
      subst he
      refine ⟨?_, ?_, ?_, ?_⟩
      · simp only [updCore_cores_self]
        exact hlastu
      · intro p hp
        exact absurd hp (by simp)
      · intro _ j
        simp only [updCore_threads]
        exact hticks j
      · intro q hq
        simp only [updCore_processes]
        exact hproc q hq
    | some n =>
      obtain ⟨lR, lcur, lq, lco, ltl, llast, lst, lpr, ltk, lproc, lnow⟩ :=
        loadContext_some_ok h
      refine ⟨?_, ?_, ?_, ?_⟩
      · rw [llast]; exact hlastu
      · intro p hp
        exact absurd hp (by simp)
      · intro _ j
        rw [ltk j]; exact hticks j
      · intro q hq
        rw [lproc q]; exact hproc q hq
  | some p =>
    rw [hc] at h
    obtain ⟨u1, u2, u3⟩ := ULCST_sched_fields s core (some p) s.current_process core
    have hlastu : ((UpdateLastContextSwitchTime s core (some p) s.current_process).cores
        core).last_context_switch_time = s.now :=
      ULCST_last_self s core (some p) s.current_process
    have hticks : ∀ j, ((UpdateLastContextSwitchTime s core (some p) s.current_process).threads
        j).cpu_time_ticks = if j = p then ((s.threads j).cpu_time_ticks
          + u64sub s.now ((s.cores core).last_context_switch_time)) % U64
        else (s.threads j).cpu_time_ticks := by
      intro j
      rw [ULCST_ticks_some s core p s.current_process j]
      by_cases hj : j = p <;> simp [hj]
    have hproc : ∀ q, s.current_process = some q →
        ((UpdateLastContextSwitchTime s core (some p) s.current_process).processes
          q).cpu_time_ticks = ((s.processes q).cpu_time_ticks
            + u64sub s.now ((s.cores core).last_context_switch_time)) % U64 := by
      intro q hq
      rw [hq]
      exact ULCST_proc_ticks s core (some p) q
    have hust : ((UpdateLastContextSwitchTime s core (some p) s.current_process).threads
        p).status = (s.threads p).status :=
      (ULCST_thread_fields s core (some p) s.current_process p).1
    by_cases hr : (s.threads p).status = ThreadStatus.Running
    · obtain ⟨Sq, Sc, Sl, SL, Sq2, Sst, Spr, Stk, Sprc, Scp, Snow⟩ :=
        @saveContext_running (UpdateLastContextSwitchTime s core (some p) s.current_process)
          core p (u1.trans hc) (by rw [hust]; exact hr)
      cases nt with
      | none =>
        have he := loadContext_none_ok h
        subst he
        refine ⟨?_, ?_, ?_, ?_⟩
        · simp only [updCore_cores_self]
          rw [SL core]
          exact hlastu
        · intro p' hp' j
          have hpp : p = p' := (Option.some.injEq _ _).mp hp'
          subst hpp
          simp only [updCore_threads]
          rw [Stk j]
          exact hticks j
        · intro hcontra
          exact absurd hcontra (by simp)
        · intro q hq
          simp only [updCore_processes]
          rw [congrFun Sprc q]
          exact hproc q hq
      | some n =>
        obtain ⟨lR, lcur, lq, lco, ltl, llast, lst, lpr, ltk, lproc, lnow⟩ :=
          loadContext_some_ok h
        refine ⟨?_, ?_, ?_, ?_⟩
        · rw [llast, SL core]; exact hlastu
        · intro p' hp' j
          have hpp : p = p' := (Option.some.injEq _ _).mp hp'
          subst hpp
          rw [ltk j, Stk j]
          exact hticks j
        · intro hcontra
          exact absurd hcontra (by simp)
        · intro q hq
          rw [lproc q, congrFun Sprc q]
          exact hproc q hq
    · obtain ⟨Nc, Nst, Npr, Ntk, Nprc, Ncp, Nnow⟩ :=
        @saveContext_not_running (UpdateLastContextSwitchTime s core (some p) s.current_process)
          core p (u1.trans hc) (by rw [hust]; exact hr)
      cases nt with
      | none =>
        have he := loadContext_none_ok h
        subst he
        refine ⟨?_, ?_, ?_, ?_⟩
        · simp only [updCore_cores_self]
          rw [Nc core]
          exact hlastu
        · intro p' hp' j
          have hpp : p = p' := (Option.some.injEq _ _).mp hp'
          subst hpp
          simp only [updCore_threads]
          rw [Ntk j]
          exact hticks j
        · intro hcontra
          exact absurd hcontra (by simp)
        · intro q hq
          simp only [updCore_processes]
          rw [congrFun Nprc q]
          exact hproc q hq
      | some n =>
        obtain ⟨lR, lcur, lq, lco, ltl, llast, lst, lpr, ltk, lproc, lnow⟩ :=
          loadContext_some_ok h
        refine ⟨?_, ?_, ?_, ?_⟩
        · rw [llast, Nc core]; exact hlastu
        · intro p' hp' j
          have hpp : p = p' := (Option.some.injEq _ _).mp hp'
          subst hpp
          rw [ltk j, Ntk j]
          exact hticks j
        · intro hcontra
          exact absurd hcontra (by simp)
        · intro q hq
          rw [lproc q, congrFun Nprc q]
          exact hproc q hq

theorem runSwitches_sum_aux (core : Nat) (steps : List (Nat × Option Nat)) :
    ∀ (s s' : SystemState) (tids : List Nat),
      runSwitches core s steps = Except.ok s' →
      (s.cores core).current_thread.isSome = true →
      (∀ st ∈ steps, st.2.isSome = true) →
      List.Chain (fun a b => a ≤ b) ((s.cores core).last_context_switch_time)
        (steps.map Prod.fst) →
      (∀ t ∈ steps.map Prod.fst, t < U64) →
      (s.cores core).last_context_switch_time < U64 →
      tids.Nodup →
      (∀ c ∈ (s.cores core).current_thread.toList, c ∈ tids) →
      (∀ st ∈ steps, ∀ t, st.2 = some t → t ∈ tids) →
      (tids.map (fun t => (s.threads t).cpu_time_ticks)).sum
        ≤ (s.cores core).last_context_switch_time →
      (tids.map (fun t => (s'.threads t).cpu_time_ticks)).sum
        = (tids.map (fun t => (s.threads t).cpu_time_ticks)).sum
          + ((s'.cores core).last_context_switch_time
            - (s.cores core).last_context_switch_time)
      ∧ (s.cores core).last_context_switch_time
          ≤ (s'.cores core).last_context_switch_time
      ∧ (s'.cores core).last_context_switch_time < U64
      ∧ (tids.map (fun t => (s'.threads t).cpu_time_ticks)).sum
          ≤ (s'.cores core).last_context_switch_time := by
  induction steps with
  | nil =>
    intro s s' tids hrun hcur hsome hchain hlt hlast hnd hcov1 hcov2 hsum
    simp only [runSwitches] at hrun
    have hss : s = s' := (Except.ok.injEq _ _).mp hrun
    subst hss
    exact ⟨by omega, Nat.le_refl _, hlast, hsum⟩
  | cons step rest ih =>
    intro s s' tids hrun hcur hsome hchain hlt hlast hnd hcov1 hcov2 hsum
    obtain ⟨t1, nt1⟩ := step
    simp only [runSwitches] at hrun
    cases hsw : SwitchContext { s with now := t1 } core nt1 with
    | error e =>
      rw [hsw] at hrun
      exact Except.noConfusion hrun
    | ok s1 =>
      rw [hsw] at hrun
      obtain ⟨p, hp⟩ := Option.isSome_iff_exists.mp hcur
      have hmapcons : ((t1, nt1) :: rest).map Prod.fst = t1 :: rest.map Prod.fst := rfl
      rw [hmapcons] at hchain hlt
      have hchain1 := List.chain_cons.mp hchain
      have ht1U : t1 < U64 := hlt t1 (List.mem_cons_self _ _)
      obtain ⟨alast, aticks, aticksn, aproc⟩ := SwitchContext_acct hsw
      have hlast1 : (s1.cores core).last_context_switch_time = t1 := alast
      have hsub : u64sub t1 ((s.cores core).last_context_switch_time)
          = t1 - (s.cores core).last_context_switch_time :=
        u64sub_of_le hchain1.1 ht1U
      have hpt : ∀ j, (s1.threads j).cpu_time_ticks =
          if j = p then ((s.threads j).cpu_time_ticks
            + (t1 - (s.cores core).last_context_switch_time)) % U64
          else (s.threads j).cpu_time_ticks := by
        intro j
        have := aticks p hp j
        rw [hsub] at this
        exact this
      have hptids : p ∈ tids := hcov1 p (by rw [hp]; simp)
      have hple : (s.threads p).cpu_time_ticks
          ≤ (tids.map (fun t => (s.threads t).cpu_time_ticks)).sum :=
        List.single_le_sum (fun x _ => Nat.zero_le x) _
          (List.mem_map_of_mem _ hptids)
      have hmod : ((s.threads p).cpu_time_ticks
          + (t1 - (s.cores core).last_context_switch_time)) % U64
          = (s.threads p).cpu_time_ticks
            + (t1 - (s.cores core).last_context_switch_time) :=
        Nat.mod_eq_of_lt (by omega)
      have hmapeq : tids.map (fun t => (s1.threads t).cpu_time_ticks)
          = tids.map (fun t => if t = p then ((s.threads p).cpu_time_ticks
              + (t1 - (s.cores core).last_context_switch_time)) % U64
            else (s.threads t).cpu_time_ticks) := by
        apply List.map_congr_left
        intro t _
        rw [hpt t]
        by_cases htp : t = p
        · subst htp; simp
        · simp [htp]
      have hupd : (tids.map (fun t => if t = p then ((s.threads p).cpu_time_ticks
            + (t1 - (s.cores core).last_context_switch_time)) % U64
          else (s.threads t).cpu_time_ticks)).sum + (s.threads p).cpu_time_ticks
          = (tids.map (fun t => (s.threads t).cpu_time_ticks)).sum
            + ((s.threads p).cpu_time_ticks
              + (t1 - (s.cores core).last_context_switch_time)) % U64 :=
        sum_map_update hnd hptids _ _
      have hsum1 : (tids.map (fun t => (s1.threads t).cpu_time_ticks)).sum
          = (tids.map (fun t => (s.threads t).cpu_time_ticks)).sum
            + (t1 - (s.cores core).last_context_switch_time) := by
        rw [hmapeq]
        omega
      have hcur1 : (s1.cores core).current_thread = nt1 :=
        (SwitchContext_post hsw).1
      have hnt1some : nt1.isSome = true := hsome (t1, nt1) (List.mem_cons_self _ _)
      obtain ⟨m, hm⟩ := Option.isSome_iff_exists.mp hnt1some
      have hsome' : ∀ st ∈ rest, st.2.isSome = true :=
        fun st hst => hsome st (List.mem_cons_of_mem _ hst)
      have hchain' : List.Chain (fun a b => a ≤ b)
          ((s1.cores core).last_context_switch_time) (rest.map Prod.fst) := by
        rw [hlast1]
        exact hchain1.2
      have hlt' : ∀ t ∈ rest.map Prod.fst, t < U64 :=
        fun t ht => hlt t (List.mem_cons_of_mem _ ht)
      have hcov1' : ∀ c ∈ (s1.cores core).current_thread.toList, c ∈ tids := by
        intro c hcl
        rw [hcur1, hm] at hcl
        simp only [Option.toList_some, List.mem_singleton] at hcl
        rw [hcl]
        exact hcov2 (t1, nt1) (List.mem_cons_self _ _) m hm
      have hcov2' : ∀ st ∈ rest, ∀ t, st.2 = some t → t ∈ tids :=
        fun st hst t htt => hcov2 st (List.mem_cons_of_mem _ hst) t htt
      have hcur1s : (s1.cores core).current_thread.isSome = true := by
        rw [hcur1]; exact hnt1some
      have hsum1le : (tids.map (fun t => (s1.threads t).cpu_time_ticks)).sum
          ≤ (s1.cores core).last_context_switch_time := by
        rw [hsum1, hlast1]
        omega
      obtain ⟨ihsum, ihle, ihlt, ihbound⟩ := ih s1 s' tids hrun hcur1s hsome' hchain'
        hlt' (by rw [hlast1]; exact ht1U) hnd hcov1' hcov2' hsum1le
      rw [hsum1, hlast1] at ihsum
      rw [hlast1] at ihle
      refine ⟨by omega, by omega, ihlt, ihbound⟩

/-- Counterexample to C8 as stated: on the fully idle `exSys8`, a single
    switch at tick 5 spans 5 timing units, yet no thread was ever current,
    so the sum of accumulated ticks over the threads that were current at
    some point is the empty sum 0, not 5 — a delta elapsing while the core
    is idle is attributed to no thread. -/
theorem switchContext_accounting_counterexample :
    runSwitches 0 exSys8 [(5, none)] = Except.ok (runSwitchesD 0 exSys8 [(5, none)])
    ∧ currentsOf exSys8 0 [(5, none)] = []
    ∧ ((runSwitchesD 0 exSys8 [(5, none)]).cores 0).last_context_switch_time
        - (exSys8.cores 0).last_context_switch_time = 5
    ∧ ((currentsOf exSys8 0 [(5, none)]).map
        (fun t => ((runSwitchesD 0 exSys8 [(5, none)]).threads t).cpu_time_ticks)).sum = 0
    ∧ (0 : Nat) ≠ 5 := by
  refine ⟨rfl, rfl, by decide, rfl, by decide⟩

/-- C8 (amended): every completed SwitchContext attributes the u64 tick
    delta since the previous switch to the outgoing current thread and to
    the previously active process (when they exist), regardless of which
    thread is switched in, and stores the current tick as the new switch
    time; and over any successful sequence of switches with monotonic u64
    tick readings in which the core is never idle at a switch (there is an
    outgoing current thread at every switch), the per-thread accumulated
    ticks of the threads that were current at some point — starting from
    zero counters — sum to exactly the timing units spanned. -/
theorem switchContext_accounting :
    (∀ (s : SystemState) (core p : Nat) (nt : Option Nat) (s' : SystemState),
      (s.cores core).current_thread = some p →
      SwitchContext s core nt = Except.ok s' →
      (s'.threads p).cpu_time_ticks = ((s.threads p).cpu_time_ticks
        + u64sub s.now ((s.cores core).last_context_switch_time)) % U64
      ∧ (∀ q, s.current_process = some q →
          (s'.processes q).cpu_time_ticks = ((s.processes q).cpu_time_ticks
            + u64sub s.now ((s.cores core).last_context_switch_time)) % U64)
      ∧ (s'.cores core).last_context_switch_time = s.now)
    ∧ (∀ (core : Nat) (s : SystemState) (steps : List (Nat × Option Nat)) (s' : SystemState)
        (tids : List Nat),
        runSwitches core s steps = Except.ok s' →
        (s.cores core).current_thread.isSome = true →
        (∀ st ∈ steps, st.2.isSome = true) →
        List.Chain (fun a b => a ≤ b) ((s.cores core).last_context_switch_time)
          (steps.map Prod.fst) →
        (∀ t ∈ steps.map Prod.fst, t < U64) →
        (s.cores core).last_context_switch_time < U64 →
        tids.Nodup →
        (∀ c ∈ (s.cores core).current_thread.toList, c ∈ tids) →
        (∀ st ∈ steps, ∀ t, st.2 = some t → t ∈ tids) →
        (∀ t ∈ tids, (s.threads t).cpu_time_ticks = 0) →
        (tids.map (fun t => (s'.threads t).cpu_time_ticks)).sum
          = (s'.cores core).last_context_switch_time
            - (s.cores core).last_context_switch_time) := by
  constructor
  · intro s core p nt s' hp h
    obtain ⟨alast, aticks, _, aproc⟩ := SwitchContext_acct h
    refine ⟨?_, aproc, alast⟩
    have hj := aticks p hp p
    simpa using hj
  · intro core s steps s' tids hrun hcur hsome hchain hlt hlast hnd hcov1 hcov2 hzero
    have hs0 : (tids.map (fun t => (s.threads t).cpu_time_ticks)).sum = 0 := by
      apply List.sum_eq_zero
      intro x hx
      obtain ⟨t, ht, rfl⟩ := List.mem_map.mp hx
      exact hzero t ht
    have haux := runSwitches_sum_aux core steps s s' tids hrun hcur hsome hchain hlt hlast
      hnd hcov1 hcov2 (by rw [hs0]; exact Nat.zero_le _)
    rw [hs0] at haux
    omega

/-- Witness for C8 (amended): running two switches on `exSys8b` at ticks
    5 and 12 — thread 0 out at tick 5, thread 1 out at tick 12 — gives
    thread 0 five ticks and thread 1 seven ticks, summing to the 12 units
    spanned; the single-switch attribution also evaluates as stated. -/
theorem switchContext_accounting_witness :
    ([0, 1].map (fun t => ((runSwitchesD 0 exSys8b [(5, some 1), (12, some 0)]).threads
        t).cpu_time_ticks)).sum
      = ((runSwitchesD 0 exSys8b [(5, some 1), (12, some 0)]).cores
          0).last_context_switch_time
        - (exSys8b.cores 0).last_context_switch_time
    ∧ ((runSwitchesD 0 exSys8b [(5, some 1), (12, some 0)]).cores
        0).last_context_switch_time = 12
    ∧ (exSys8b.cores 0).last_context_switch_time = 0
    ∧ ((runSwitchesD 0 exSys8b [(5, some 1)]).threads 0).cpu_time_ticks
        = ((exSys8b.threads 0).cpu_time_ticks + u64sub 5 0) % U64 := by
  refine ⟨?_, by decide, by decide, ?_⟩
  · exact (switchContext_accounting).2 0 exSys8b [(5, some 1), (12, some 0)]
      (runSwitchesD 0 exSys8b [(5, some 1), (12, some 0)]) [0, 1] rfl (by decide) (by decide)
      (List.Chain.cons (by decide) (List.Chain.cons (by decide) List.Chain.nil))
      (by decide) (by decide) (by decide) (by decide) (by decide) (by decide)
  · exact ((switchContext_accounting).1 { exSys8b with now := 5 } 0 0 (some 1)
      (runSwitchesD 0 exSys8b [(5, some 1)]) rfl rfl).1
